import Mathlib

/-!
Verification development for the invoice-management application
(`src/routes/invoices.js` and the entities it manipulates).

The mongoose models (`models/Invoice.js`, `models/CommissionTier.js`,
`models/Client.js`, `models/User.js`, `models/Company.js`, `models/File.js`)
are not part of the sources; where a model method decides behaviour it is
modelled from the specification text and marked `Modelled from the spec:`.
Everything else is a direct shallow embedding of the route handlers in
`src/routes/invoices.js`.

Conventions of the embedding:
* object ids, dates and times are natural numbers;
* JavaScript floating point numbers are embedded as rationals (none of the
  verified properties depends on rounding);
* a request field that may be absent or unparsable is an `Option`;
  `parseFloat(x) || 0` becomes `Option.getD x 0` and the JS truthiness test
  `x && x > 0` becomes `jsTruthyPos`;
* the persistence collaborator is a list of documents; `findOne`/`findById`
  are `List.find?`, `save` of an existing document replaces the entry with
  the same id, `save` of a new document appends it;
* a save that the storage layer rejects is modelled by a set `failSet` of
  invoice ids whose save throws.
-/

namespace InvoicesApp

/-- Entity kinds accepted by `calculateCommissionRate` in `src/routes/invoices.js`. -/
inductive EntityType where
  | client
  | distributor
  | company
deriving DecidableEq, Repr

/-- Session-user roles that appear in the routes (`req.session.user.role`). -/
inductive Role where
  | admin
  | distributor
deriving DecidableEq, Repr

/-- The three payment steps of `paymentStatus` (`validSteps` in the routes). -/
inductive Step where
  | clientToDistributor
  | distributorToAdmin
  | adminToCompany
deriving DecidableEq, Repr

/-- A commission tier document (`CommissionTier` collection): an amount range
`[minAmount, maxAmount]` (unbounded when `maxAmount` is `null`) mapped to a
percentage `rate` for one entity. -/
structure CommissionTier where
  entityType : EntityType
  entityId : Nat
  minAmount : ℚ
  maxAmount : Option ℚ
  rate : ℚ
deriving DecidableEq, Repr

/-- Does a tier apply to `(entityType, entityId, amount)`:
`minAmount <= amount` and (`maxAmount` null or `amount <= maxAmount`). -/
def tierMatches (t : CommissionTier) (et : EntityType) (eid : Nat) (amount : ℚ) : Bool :=
  decide (t.entityType = et) && t.entityId == eid && decide (t.minAmount ≤ amount) &&
    (match t.maxAmount with
     | none => true
     | some mx => decide (amount ≤ mx))

/-- Width of a tier's range, `maxAmount - minAmount`; `none` stands for an
unbounded range, which is treated as the largest width. -/
def tierWidth (t : CommissionTier) : Option ℚ :=
  t.maxAmount.map (fun mx => mx - t.minAmount)

/-- Order on optional widths: `none` (unbounded) is the top element. -/
def owLE : Option ℚ → Option ℚ → Bool
  | _, none => true
  | none, some _ => false
  | some a, some b => decide (a ≤ b)

theorem owLE_refl (a : Option ℚ) : owLE a a = true := by
  cases a <;> simp [owLE]

theorem owLE_total (a b : Option ℚ) : owLE a b = true ∨ owLE b a = true := by
  cases a <;> cases b <;> simp only [owLE, decide_eq_true_eq] <;> try simp
  exact le_total _ _

theorem owLE_trans {a b c : Option ℚ} (h1 : owLE a b = true) (h2 : owLE b c = true) :
    owLE a c = true := by
  cases a <;> cases b <;> cases c <;> simp_all [owLE]
  exact le_trans h1 h2

/-- Keep the accumulated tier unless the candidate has a strictly narrower range. -/
def narrowerTier (acc t : CommissionTier) : CommissionTier :=
  if owLE (tierWidth acc) (tierWidth t) then acc else t

/-- Modelled from the spec: `CommissionTier.findCommissionRate` (static of the
`CommissionTier` model, file `models/CommissionTier.js`, absent from the
sources).  Per §4.1 of the specification it looks up the tiers matching
`entityType`, `entityId` and the amount range, picks the **narrowest matching
range** (smallest `maxAmount - minAmount`, unbounded ranges treated as
largest) as the deterministic tie-break, and returns `null` when no tier
matches. -/
def findCommissionRate (tiers : List CommissionTier) (et : EntityType) (eid : Nat)
    (amount : ℚ) : Option ℚ :=
  match tiers.filter (fun t => tierMatches t et eid amount) with
  | [] => none
  | t :: ts => some ((ts.foldl narrowerTier t).rate)

/-- An entity document carrying a default `commissionRate`
(`Client`, distributor `User`, or `Company`). -/
structure RateEntity where
  id : Nat
  commissionRate : ℚ
deriving DecidableEq, Repr

/-- A `File` document: its `company` reference (nullable). -/
structure FileRec where
  id : Nat
  company : Option Nat
deriving DecidableEq, Repr

/-- The read-only collections consulted during rate resolution. -/
structure Env where
  tiers : List CommissionTier
  clients : List RateEntity
  users : List RateEntity
  companies : List RateEntity
  files : List FileRec
deriving Repr

/-- The collection consulted by the `switch (entityType)` of
`calculateCommissionRate`. -/
def entityCollection (env : Env) : EntityType → List RateEntity
  | .client => env.clients
  | .distributor => env.users
  | .company => env.companies

/-- `calculateCommissionRate` (src/routes/invoices.js:15-38): tier rate when a
tier is found, else the entity's default `commissionRate`, else `0` when the
entity does not exist. -/
def calculateCommissionRate (env : Env) (entityType : EntityType) (entityId : Nat)
    (amount : ℚ) : ℚ :=
  match findCommissionRate env.tiers entityType entityId amount with
  | some r => r
  | none =>
    match (entityCollection env entityType).find? (fun e => e.id == entityId) with
    | some e => e.commissionRate
    | none => 0

/-! Properties of the tier resolver. -/

theorem foldl_narrowerTier_mem (t : CommissionTier) (ts : List CommissionTier) :
    ts.foldl narrowerTier t ∈ t :: ts := by
  induction ts generalizing t with
  | nil => simp
  | cons x xs ih =>
    have h := ih (narrowerTier t x)
    simp only [List.foldl_cons]
    rcases List.mem_cons.mp h with h1 | h1
    · rw [h1]
      unfold narrowerTier
      by_cases hc : owLE (tierWidth t) (tierWidth x) = true
      · simp [hc]
      · simp [hc]
    · simp [h1]

theorem foldl_narrowerTier_min (t : CommissionTier) (ts : List CommissionTier) :
    ∀ u ∈ t :: ts, owLE (tierWidth (ts.foldl narrowerTier t)) (tierWidth u) = true := by
  induction ts generalizing t with
  | nil =>
    intro u hu
    simp at hu
    rw [hu]
    exact owLE_refl _
  | cons x xs ih =>
    intro u hu
    simp only [List.foldl_cons]
    have hstep : owLE (tierWidth (narrowerTier t x)) (tierWidth t) = true ∧
        owLE (tierWidth (narrowerTier t x)) (tierWidth x) = true := by
      unfold narrowerTier
      by_cases hc : owLE (tierWidth t) (tierWidth x) = true
      · simp [hc, owLE_refl]
      · rcases owLE_total (tierWidth t) (tierWidth x) with h | h
        · exact absurd h hc
        · simp [hc, h, owLE_refl]
    rcases List.mem_cons.mp hu with h1 | h1
    · rw [h1]
      exact owLE_trans (ih (narrowerTier t x) _ (List.mem_cons_self _ _)) hstep.1
    rcases List.mem_cons.mp h1 with h2 | h2
    · rw [h2]
      exact owLE_trans (ih (narrowerTier t x) _ (List.mem_cons_self _ _)) hstep.2
    · exact ih (narrowerTier t x) u (List.mem_cons_of_mem _ h2)

theorem findCommissionRate_eq_none_of_no_match {tiers : List CommissionTier}
    {et : EntityType} {eid : Nat} {amount : ℚ}
    (h : ∀ t ∈ tiers, tierMatches t et eid amount = false) :
    findCommissionRate tiers et eid amount = none := by
  unfold findCommissionRate
  have hfil : tiers.filter (fun t => tierMatches t et eid amount) = [] := by
    rw [List.filter_eq_nil_iff]
    intro a ha
    simp [h a ha]
  rw [hfil]

/-! The invoice document and the payment-state sub-document. -/

/-- One leg of the payment pipeline: the schema sub-record
`{isPaid, markedBy, paidAt}` (§3 of the spec), plus the schemaless fields the
`process-payment` route writes through dotted update paths
(`status`, `paymentMethod`, `notes`). -/
structure StageRecord where
  isPaid : Bool := false
  markedBy : Option Nat := none
  paidAt : Option Nat := none
  status : Option String := none
  paymentMethod : Option String := none
  notes : Option String := none
deriving DecidableEq, Repr

/-- The three payment stages of an invoice. -/
structure PaymentStatus where
  clientToDistributor : StageRecord := {}
  distributorToAdmin : StageRecord := {}
  adminToCompany : StageRecord := {}
deriving DecidableEq, Repr

/-- An `Invoice` document, with the fields read or written by
`src/routes/invoices.js`. -/
structure Invoice where
  id : Nat
  invoiceCode : String
  client : Nat
  file : Nat
  assignedDistributor : Nat
  invoiceDate : Nat
  total : ℚ := 0
  amount : ℚ := 0
  taxPercentage : ℚ := 0
  taxAmount : ℚ := 0
  managementTaxPercentage : ℚ := 0
  managementTaxAmount : ℚ := 0
  corporateTaxPercentage : ℚ := 0
  corporateTaxAmount : ℚ := 0
  profitPercentage : ℚ := 0
  profitAmount : ℚ := 0
  finalAmount : ℚ := 0
  discountAmount : ℚ := 0
  clientCommissionRate : ℚ := 0
  distributorCommissionRate : ℚ := 0
  companyCommissionRate : ℚ := 0
  customClientCommissionRate : Option ℚ := none
  customDistributorCommissionRate : Option ℚ := none
  createdBy : Option Nat := none
  isApproved : Bool := false
  approvedBy : Option Nat := none
  approvedAt : Option Nat := none
  status : Option String := none
  paymentStatus : PaymentStatus := {}
  paymentNotes : Option String := none
deriving DecidableEq, Repr

/-- Read one stage sub-record of a `paymentStatus`
(the JS expression `invoice.paymentStatus[step]`). -/
def stageGet (ps : PaymentStatus) : Step → StageRecord
  | .clientToDistributor => ps.clientToDistributor
  | .distributorToAdmin => ps.distributorToAdmin
  | .adminToCompany => ps.adminToCompany

/-- Replace one stage sub-record of a `paymentStatus`. -/
def stageSet (ps : PaymentStatus) : Step → StageRecord → PaymentStatus
  | .clientToDistributor, r => { ps with clientToDistributor := r }
  | .distributorToAdmin, r => { ps with distributorToAdmin := r }
  | .adminToCompany, r => { ps with adminToCompany := r }

/-- Modelled from the spec: `markPaymentStep` of the `Invoice` model
(file `models/Invoice.js`, absent from the sources).  Per §4.3 it
"sets `isPaid = true`, `markedBy = actor`, `paidAt = now`" on the given stage. -/
def markPaymentStep (inv : Invoice) (step : Step) (userId now : Nat) : Invoice :=
  let r := stageGet inv.paymentStatus step
  let r2 : StageRecord :=
    { r with isPaid := true, markedBy := some userId, paidAt := some now }
  { inv with paymentStatus := stageSet inv.paymentStatus step r2 }

/-- Modelled from the spec: `canUserMarkPayment` of the `Invoice` model
(file `models/Invoice.js`, absent from the sources).  Per §4.3 "distributors
may mark `clientToDistributor` only on invoices where they are
`assignedDistributor`; admins may mark `distributorToAdmin` and
`adminToCompany` only on invoices they themselves created". -/
def canUserMarkPayment (inv : Invoice) (userId : Nat) (role : Role) (step : Step) : Bool :=
  match role, step with
  | .distributor, .clientToDistributor => inv.assignedDistributor == userId
  | .admin, .distributorToAdmin => inv.createdBy == some userId
  | .admin, .adminToCompany => inv.createdBy == some userId
  | _, _ => false

/-! The persistence collaborator: a list of invoice documents. -/

/-- `findById` / `findOne({_id: k})` over the invoice collection. -/
def lookupById (store : List Invoice) (k : Nat) : Option Invoice :=
  store.find? (fun j => j.id == k)

/-- `save()` of a fetched-and-mutated document: replaces the stored entry
carrying the same `_id`. -/
def saveById (store : List Invoice) (v : Invoice) : List Invoice :=
  store.map (fun j => if j.id == v.id then v else j)

/-- Sequentially `save()` a list of mutated documents
(the `for (const invoice of invoices) { ...; await invoice.save(); }` loops). -/
def saveAll (marks : List Invoice) (store : List Invoice) : List Invoice :=
  marks.foldl saveById store

theorem find?_congr_pred {α : Type} (p q : α → Bool) (l : List α)
    (h : ∀ a, p a = q a) : l.find? p = l.find? q := by
  induction l with
  | nil => rfl
  | cons x xs ih =>
    simp only [List.find?]
    rw [h x, ih]

theorem lookupById_saveById (store : List Invoice) (v : Invoice) (k : Nat) :
    lookupById (saveById store v) k =
      (lookupById store k).map (fun j => if j.id == v.id then v else j) := by
  unfold lookupById saveById
  rw [List.find?_map]
  have hpred : ∀ j : Invoice,
      ((fun j : Invoice => j.id == k) ∘ fun j => if j.id == v.id then v else j) j =
      (fun j : Invoice => j.id == k) j := by
    intro j
    by_cases h : j.id = v.id
    · simp [h]
    · simp [h]
  rw [find?_congr_pred _ _ _ hpred]

theorem ids_saveById (store : List Invoice) (v : Invoice) :
    (saveById store v).map (fun j => j.id) = store.map (fun j => j.id) := by
  unfold saveById
  rw [List.map_map]
  apply List.map_congr_left
  intro j _
  by_cases h : j.id = v.id
  · simp [h]
  · simp [h]

theorem ids_saveAll (marks store : List Invoice) :
    (saveAll marks store).map (fun j => j.id) = store.map (fun j => j.id) := by
  induction marks generalizing store with
  | nil => rfl
  | cons m ms ih =>
    unfold saveAll
    simp only [List.foldl_cons]
    rw [show List.foldl saveById (saveById store m) ms = saveAll ms (saveById store m) from rfl]
    rw [ih, ids_saveById]

theorem lookupById_saveAll_not_mem (marks store : List Invoice) (k : Nat)
    (h : ∀ m ∈ marks, m.id ≠ k) :
    lookupById (saveAll marks store) k = lookupById store k := by
  induction marks generalizing store with
  | nil => rfl
  | cons m ms ih =>
    unfold saveAll
    simp only [List.foldl_cons]
    rw [show List.foldl saveById (saveById store m) ms = saveAll ms (saveById store m) from rfl]
    rw [ih _ (fun x hx => h x (List.mem_cons_of_mem _ hx))]
    rw [lookupById_saveById]
    cases hl : lookupById store k with
    | none => rfl
    | some j =>
      have hj : j.id = k := by
        have := List.find?_some hl
        simpa using this
      have hm : m.id ≠ k := h m (List.mem_cons_self _ _)
      simp [hj, hm, Ne.symm hm]

theorem lookupById_some_id {store : List Invoice} {k : Nat} {j : Invoice}
    (h : lookupById store k = some j) : j.id = k := by
  have := List.find?_some h
  simpa using this

theorem lookupById_mem {store : List Invoice} {k : Nat} {j : Invoice}
    (h : lookupById store k = some j) : j ∈ store :=
  List.mem_of_find?_eq_some h

/-- With no duplicate ids, membership pins down the result of `lookupById`. -/
theorem lookupById_of_mem {store : List Invoice} {x : Invoice}
    (hnd : (store.map (fun j => j.id)).Nodup) (hx : x ∈ store) :
    lookupById store x.id = some x := by
  induction store with
  | nil => simp at hx
  | cons y ys ih =>
    simp only [List.map_cons, List.nodup_cons] at hnd
    rcases List.mem_cons.mp hx with h1 | h1
    · rw [h1]
      unfold lookupById
      simp [List.find?]
    · have hy : y.id ≠ x.id := by
        intro hcontra
        exact hnd.1 (hcontra ▸ List.mem_map_of_mem (fun j => j.id) h1)
      unfold lookupById
      simp only [List.find?]
      have : (y.id == x.id) = false := by simp [hy]
      rw [this]
      exact ih hnd.2 h1

theorem lookupById_saveAll_mem (marks store : List Invoice) (v : Invoice)
    (hnd : (marks.map (fun j => j.id)).Nodup) (hv : v ∈ marks) :
    lookupById (saveAll marks store) v.id =
      (lookupById store v.id).map (fun _ => v) := by
  induction marks generalizing store with
  | nil => simp at hv
  | cons m ms ih =>
    simp only [List.map_cons, List.nodup_cons] at hnd
    unfold saveAll
    simp only [List.foldl_cons]
    rw [show List.foldl saveById (saveById store m) ms = saveAll ms (saveById store m) from rfl]
    rcases List.mem_cons.mp hv with h1 | h1
    · rw [h1]
      have hnot : ∀ x ∈ ms, x.id ≠ m.id := by
        intro x hx hcontra
        exact hnd.1 (hcontra ▸ List.mem_map_of_mem (fun j => j.id) hx)
      rw [lookupById_saveAll_not_mem _ _ _ hnot]
      rw [lookupById_saveById]
      cases hl : lookupById store m.id with
      | none => rfl
      | some j =>
        have hj : j.id = m.id := lookupById_some_id hl
        simp [hj]
    · have hmv : m.id ≠ v.id := by
        intro hcontra
        exact hnd.1 (hcontra ▸ List.mem_map_of_mem (fun j => j.id) h1)
      rw [ih (saveById store m) hnd.2 h1]
      rw [lookupById_saveById]
      cases hl : lookupById store v.id with
      | none => rfl
      | some j =>
        have hj : j.id = v.id := lookupById_some_id hl
        simp [hj, Ne.symm hmv]

/-- Claim C1: for every entity and amount, when tiers of that entity match the
amount (in particular when several overlapping ranges match), the rate
resolver deterministically returns the rate of a matching tier whose range is
narrowest (smallest `maxAmount - minAmount`, an unbounded `maxAmount` being
the largest width); being a pure function of its arguments it never depends
on an unspecified query return order. -/
theorem commission_tier_narrowest_range (tiers : List CommissionTier)
    (et : EntityType) (eid : Nat) (a r : ℚ)
    (h : findCommissionRate tiers et eid a = some r) :
    ∃ t ∈ tiers, tierMatches t et eid a = true ∧ t.rate = r ∧
      ∀ u ∈ tiers, tierMatches u et eid a = true →
        owLE (tierWidth t) (tierWidth u) = true := by
  unfold findCommissionRate at h
  cases hf : tiers.filter (fun t => tierMatches t et eid a) with
  | nil => rw [hf] at h; exact absurd h (by simp)
  | cons m ms =>
    rw [hf] at h
    have hr : (ms.foldl narrowerTier m).rate = r := by
      simpa using h
    have hmem : ms.foldl narrowerTier m ∈
        tiers.filter (fun t => tierMatches t et eid a) := by
      rw [hf]
      exact foldl_narrowerTier_mem m ms
    obtain ⟨hmem1, hmem2⟩ := List.mem_filter.mp hmem
    refine ⟨ms.foldl narrowerTier m, hmem1, hmem2, hr, ?_⟩
    · intro u hu hmatch
      have humem : u ∈ m :: ms := by
        rw [← hf]
        exact List.mem_filter.mpr ⟨hu, hmatch⟩
      exact foldl_narrowerTier_min m ms u humem

/-- Witness for C1: two overlapping tiers for client 1, `[0, 2000] -> 7` and
`[0, ∞) -> 5`; at amount 1000 the bounded (narrower) tier wins. -/
theorem commission_tier_narrowest_range_witness :
    ∃ t ∈ ([⟨EntityType.client, 1, 0, some 2000, 7⟩,
            ⟨EntityType.client, 1, 0, none, 5⟩] : List CommissionTier),
      tierMatches t EntityType.client 1 1000 = true ∧ t.rate = 7 ∧
        ∀ u ∈ ([⟨EntityType.client, 1, 0, some 2000, 7⟩,
                ⟨EntityType.client, 1, 0, none, 5⟩] : List CommissionTier),
          tierMatches u EntityType.client 1 1000 = true →
            owLE (tierWidth t) (tierWidth u) = true :=
  commission_tier_narrowest_range _ EntityType.client 1 1000 7 (by decide)

/-- Claim C2: for every entity type, entity id and amount, when no commission
tier matches the amount `calculateCommissionRate` returns the entity's stored
default `commissionRate`, and when additionally the entity does not exist it
returns `0` (src/routes/invoices.js:15-38). -/
theorem default_rate_fallback (env : Env) (et : EntityType) (eid : Nat) (a : ℚ)
    (hno : ∀ t ∈ env.tiers, tierMatches t et eid a = false) :
    (∀ e, (entityCollection env et).find? (fun x => x.id == eid) = some e →
        calculateCommissionRate env et eid a = e.commissionRate) ∧
    ((entityCollection env et).find? (fun x => x.id == eid) = none →
        calculateCommissionRate env et eid a = 0) := by
  unfold calculateCommissionRate
  rw [findCommissionRate_eq_none_of_no_match hno]
  constructor
  · intro e he
    rw [he]
  · intro he
    rw [he]

/-- Witness for C2: an environment with no tiers and a single client with
default rate 4; the fallback returns 4 for that client and 0 for a missing
entity id (instantiated at the stored client). -/
theorem default_rate_fallback_witness :
    (∀ e, (entityCollection
        { tiers := [], clients := [⟨3, 4⟩], users := [], companies := [],
          files := [] } EntityType.client).find? (fun x => x.id == 3) = some e →
        calculateCommissionRate
          { tiers := [], clients := [⟨3, 4⟩], users := [], companies := [],
            files := [] } EntityType.client 3 100 = e.commissionRate) ∧
    ((entityCollection
        { tiers := [], clients := [⟨3, 4⟩], users := [], companies := [],
          files := [] } EntityType.client).find? (fun x => x.id == 3) = none →
        calculateCommissionRate
          { tiers := [], clients := [⟨3, 4⟩], users := [], companies := [],
            files := [] } EntityType.client 3 100 = 0) :=
  default_rate_fallback _ EntityType.client 3 100 (by decide)

/-! The invoice creation workflow, `router.post('/')`
(src/routes/invoices.js:179-309). -/

/-- The acting session user `{id, role}`. -/
structure UserCtx where
  id : Nat
  role : Role
deriving DecidableEq, Repr

/-- `String.prototype.trim` of JS: drop whitespace from both ends
(written out over the character list so that it evaluates by reduction). -/
def strTrim (s : String) : String :=
  ⟨((s.data.dropWhile Char.isWhitespace).reverse.dropWhile Char.isWhitespace).reverse⟩

/-- The JS guard `x && x > 0` on an optional numeric field: false when the
field is absent, otherwise the numeric comparison. -/
def jsTruthyPos : Option ℚ → Bool
  | none => false
  | some v => decide (0 < v)

/-- The request body of invoice creation.  Numeric fields are optional: the
route applies `parseFloat(x) || 0` to each. -/
structure CreateInput where
  invoiceCode : String
  client : Nat
  file : Nat
  assignedDistributor : Nat
  invoiceDate : Nat
  total : Option ℚ := none
  taxPercentage : Option ℚ := none
  taxAmount : Option ℚ := none
  managementTaxPercentage : Option ℚ := none
  managementTaxAmount : Option ℚ := none
  corporateTaxPercentage : Option ℚ := none
  corporateTaxAmount : Option ℚ := none
  profitPercentage : Option ℚ := none
  profitAmount : Option ℚ := none
  finalAmount : Option ℚ := none
  discountAmount : Option ℚ := none
  customClientCommissionRate : Option ℚ := none
  customDistributorCommissionRate : Option ℚ := none
deriving DecidableEq, Repr

/-- Outcome of invoice creation: success, the duplicate-code rejection
(`'Invoice code already exists.'`, raised both by the pre-insert check and by
the `error.code === 11000` handler), or the generic persistence failure
message — the latter two are distinct user-facing errors. -/
inductive CreateResult where
  | created (inv : Invoice)
  | duplicateCode
  | genericFailure
deriving DecidableEq, Repr

/-- The company commission rate of the create route: `File.findById(file)`,
populate its `company`, rate `0` when the file or its company is missing
(src/routes/invoices.js:259-264). -/
def companyRateFor (env : Env) (fileId : Nat) (amount : ℚ) : ℚ :=
  match env.files.find? (fun f => f.id == fileId) with
  | none => 0
  | some fd =>
    match fd.company with
    | none => 0
    | some cid =>
      if ((env.companies.find? (fun c => c.id == cid)).isSome : Bool) then
        calculateCommissionRate env .company cid amount
      else 0

/-- `router.post('/')` (src/routes/invoices.js:179-309): duplicate-code
pre-check, `parseFloat(..) || 0` coercion of every monetary field, custom
commission overrides (`customXRate && customXRate > 0`), tier/default rate
resolution otherwise, then insertion of the new document. -/
def createInvoice (env : Env) (user : UserCtx) (inp : CreateInput) (newId : Nat)
    (store : List Invoice) : CreateResult × List Invoice :=
  if ((store.find? (fun i => i.invoiceCode == strTrim inp.invoiceCode)).isSome : Bool) then
    (.duplicateCode, store)
  else
    let invoiceTotal := inp.total.getD 0
    let clientPair : ℚ × Option ℚ :=
      if jsTruthyPos inp.customClientCommissionRate then
        (inp.customClientCommissionRate.getD 0, inp.customClientCommissionRate)
      else
        (calculateCommissionRate env .client inp.client invoiceTotal, none)
    let distributorPair : ℚ × Option ℚ :=
      if jsTruthyPos inp.customDistributorCommissionRate then
        (inp.customDistributorCommissionRate.getD 0, inp.customDistributorCommissionRate)
      else
        (calculateCommissionRate env .distributor inp.assignedDistributor invoiceTotal, none)
    let inv : Invoice :=
      { id := newId
        invoiceCode := strTrim inp.invoiceCode
        client := inp.client
        file := inp.file
        assignedDistributor := inp.assignedDistributor
        invoiceDate := inp.invoiceDate
        total := invoiceTotal
        taxPercentage := inp.taxPercentage.getD 0
        taxAmount := inp.taxAmount.getD 0
        managementTaxPercentage := inp.managementTaxPercentage.getD 0
        managementTaxAmount := inp.managementTaxAmount.getD 0
        corporateTaxPercentage := inp.corporateTaxPercentage.getD 0
        corporateTaxAmount := inp.corporateTaxAmount.getD 0
        profitPercentage := inp.profitPercentage.getD 0
        profitAmount := inp.profitAmount.getD 0
        finalAmount := inp.finalAmount.getD 0
        discountAmount := inp.discountAmount.getD 0
        clientCommissionRate := clientPair.1
        distributorCommissionRate := distributorPair.1
        companyCommissionRate := companyRateFor env inp.file invoiceTotal
        customClientCommissionRate := clientPair.2
        customDistributorCommissionRate := distributorPair.2
        createdBy := some user.id }
    (.created inv, store ++ [inv])

/-- Claim C3: on a successful invoice creation, a supplied positive
`customClientCommissionRate` (resp. `customDistributorCommissionRate`) is
used verbatim as `clientCommissionRate` (resp. `distributorCommissionRate`)
and recorded in the override field; otherwise the rate is tier-resolved from
the invoice's total (with the entity-default fallback built into
`calculateCommissionRate`) and the override field stores `null`
(src/routes/invoices.js:238-292). -/
theorem create_custom_rate_override (env : Env) (user : UserCtx)
    (inp : CreateInput) (newId : Nat) (store : List Invoice)
    (hnodup : store.find? (fun i => i.invoiceCode == strTrim inp.invoiceCode) = none) :
    ∃ inv, createInvoice env user inp newId store = (.created inv, store ++ [inv]) ∧
      ((∀ v, inp.customClientCommissionRate = some v → 0 < v →
          inv.clientCommissionRate = v ∧ inv.customClientCommissionRate = some v) ∧
       (jsTruthyPos inp.customClientCommissionRate = false →
          inv.clientCommissionRate =
            calculateCommissionRate env .client inp.client (inp.total.getD 0) ∧
          inv.customClientCommissionRate = none)) ∧
      ((∀ v, inp.customDistributorCommissionRate = some v → 0 < v →
          inv.distributorCommissionRate = v ∧
          inv.customDistributorCommissionRate = some v) ∧
       (jsTruthyPos inp.customDistributorCommissionRate = false →
          inv.distributorCommissionRate =
            calculateCommissionRate env .distributor inp.assignedDistributor
              (inp.total.getD 0) ∧
          inv.customDistributorCommissionRate = none)) := by
  unfold createInvoice
  rw [hnodup]
  simp only [Option.isSome_none, Bool.false_eq_true, if_false]
  refine ⟨_, rfl, ⟨?_, ?_⟩, ⟨?_, ?_⟩⟩
  · intro v hv hpos
    have ht : jsTruthyPos inp.customClientCommissionRate = true := by
      rw [hv]
      simpa [jsTruthyPos] using hpos
    simp [ht, hv, jsTruthyPos, hpos]
  · intro ht
    simp [ht]
  · intro v hv hpos
    have ht : jsTruthyPos inp.customDistributorCommissionRate = true := by
      rw [hv]
      simpa [jsTruthyPos] using hpos
    simp [ht, hv, jsTruthyPos, hpos]
  · intro ht
    simp [ht]

/-- Concrete environment used by witnesses: one client tier `[0,2000] -> 5`,
client 1 (default 8), distributor 2 (default 3), company 4 (default 2),
file 6 belonging to company 4. -/
def envW : Env :=
  { tiers := [⟨EntityType.client, 1, 0, some 2000, 5⟩]
    clients := [⟨1, 8⟩]
    users := [⟨2, 3⟩]
    companies := [⟨4, 2⟩]
    files := [⟨6, some 4⟩] }

/-- Concrete creation request used by witnesses: total 1000, a custom client
rate 10, no custom distributor rate. -/
def inpW : CreateInput :=
  { invoiceCode := "INV-1 "
    client := 1
    file := 6
    assignedDistributor := 2
    invoiceDate := 10
    total := some 1000
    customClientCommissionRate := some 10 }

/-- Witness for C3: creating `inpW` on an empty store succeeds; the custom
client rate 10 is used verbatim and stored, while the distributor rate is
tier-resolved with a `null` override field. -/
theorem create_custom_rate_override_witness :
    ∃ inv, createInvoice envW ⟨7, Role.admin⟩ inpW 99 [] = (.created inv, [] ++ [inv]) ∧
      ((∀ v, inpW.customClientCommissionRate = some v → 0 < v →
          inv.clientCommissionRate = v ∧ inv.customClientCommissionRate = some v) ∧
       (jsTruthyPos inpW.customClientCommissionRate = false →
          inv.clientCommissionRate =
            calculateCommissionRate envW .client inpW.client (inpW.total.getD 0) ∧
          inv.customClientCommissionRate = none)) ∧
      ((∀ v, inpW.customDistributorCommissionRate = some v → 0 < v →
          inv.distributorCommissionRate = v ∧
          inv.customDistributorCommissionRate = some v) ∧
       (jsTruthyPos inpW.customDistributorCommissionRate = false →
          inv.distributorCommissionRate =
            calculateCommissionRate envW .distributor inpW.assignedDistributor
              (inpW.total.getD 0) ∧
          inv.customDistributorCommissionRate = none)) :=
  create_custom_rate_override envW ⟨7, Role.admin⟩ inpW 99 [] rfl

theorem find?_append_none {α : Type} (p : α → Bool) (l1 l2 : List α)
    (h : l1.find? p = none) : (l1 ++ l2).find? p = l2.find? p := by
  induction l1 with
  | nil => rfl
  | cons x xs ih =>
    simp only [List.find?] at h
    cases hx : p x with
    | true => rw [hx] at h; exact absurd h (by simp)
    | false =>
      rw [hx] at h
      simp only [List.cons_append, List.find?, hx]
      exact ih h

/-- Claim C6: creating two invoices whose codes agree after trimming makes the
second call fail with the duplicate-code error — a user-facing outcome
distinct from the generic persistence failure (`CreateResult.duplicateCode`
versus `CreateResult.genericFailure`) — leaves the store untouched, and
afterwards exactly one stored invoice carries that code
(src/routes/invoices.js:202-207 and 300-308). -/
theorem duplicate_invoice_code (env : Env) (user1 user2 : UserCtx)
    (inp1 inp2 : CreateInput) (id1 id2 : Nat) (store : List Invoice)
    (hclean : ∀ i ∈ store, (i.invoiceCode == strTrim inp1.invoiceCode) = false)
    (hsame : strTrim inp2.invoiceCode = strTrim inp1.invoiceCode) :
    ∃ inv1,
      createInvoice env user1 inp1 id1 store = (.created inv1, store ++ [inv1]) ∧
      createInvoice env user2 inp2 id2 (store ++ [inv1]) =
        (.duplicateCode, store ++ [inv1]) ∧
      ((store ++ [inv1]).filter
        (fun i => i.invoiceCode == strTrim inp1.invoiceCode)).length = 1 := by
  have hnone : store.find? (fun i => i.invoiceCode == strTrim inp1.invoiceCode) = none := by
    rw [List.find?_eq_none]
    intro x hx
    simp [hclean x hx]
  have hsucc : ∃ inv1,
      createInvoice env user1 inp1 id1 store = (.created inv1, store ++ [inv1]) ∧
      inv1.invoiceCode = strTrim inp1.invoiceCode := by
    unfold createInvoice
    rw [hnone]
    simp only [Option.isSome_none, Bool.false_eq_true, if_false]
    exact ⟨_, rfl, rfl⟩
  obtain ⟨inv1, h1, hcode⟩ := hsucc
  refine ⟨inv1, h1, ?_, ?_⟩
  · unfold createInvoice
    rw [hsame]
    rw [find?_append_none _ _ _ hnone]
    simp [List.find?, hcode]
  · rw [List.filter_append]
    have hfe : store.filter (fun i => i.invoiceCode == strTrim inp1.invoiceCode) = [] := by
      rw [List.filter_eq_nil_iff]
      intro a ha
      simp [hclean a ha]
    rw [hfe]
    simp [List.filter, hcode]

/-- Witness for C6: two requests with codes `"A "` and `"A"` on an empty
store; the second one is rejected as a duplicate and one invoice remains. -/
theorem duplicate_invoice_code_witness :
    ∃ inv1 : Invoice,
      createInvoice envW ⟨7, Role.admin⟩
          { invoiceCode := "A ", client := 1, file := 6, assignedDistributor := 2,
            invoiceDate := 10 } 40 [] = (.created inv1, [] ++ [inv1]) ∧
      createInvoice envW ⟨7, Role.admin⟩
          { invoiceCode := "A", client := 1, file := 6, assignedDistributor := 2,
            invoiceDate := 11 } 41 ([] ++ [inv1]) = (.duplicateCode, [] ++ [inv1]) ∧
      ((([] : List Invoice) ++ [inv1]).filter
        (fun i => i.invoiceCode ==
          strTrim ({ invoiceCode := "A ", client := 1, file := 6,
                     assignedDistributor := 2,
                     invoiceDate := 10 } : CreateInput).invoiceCode)).length = 1 :=
  duplicate_invoice_code envW ⟨7, Role.admin⟩ ⟨7, Role.admin⟩
    { invoiceCode := "A ", client := 1, file := 6, assignedDistributor := 2,
      invoiceDate := 10 }
    { invoiceCode := "A", client := 1, file := 6, assignedDistributor := 2,
      invoiceDate := 11 }
    40 41 [] (by intro i hi; simp at hi) (by decide)

/-! The invoice update workflow, `router.put('/:id')`
(src/routes/invoices.js:717-830). -/

/-- Per-module permission level of the actor
(`req.userPermissionLevel`). -/
structure Perms where
  canViewAll : Bool
  canViewOwn : Bool
deriving DecidableEq, Repr

/-- The visibility-scoped query of the update/delete/details routes: match by
`_id`, and for restricted actors additionally `assignedDistributor = actor`
and `createdBy` not among the admin ids (src/routes/invoices.js:732-741). -/
def updateQueryPred (perms : Perms) (actorId : Nat) (adminIds : List Nat)
    (rid : Nat) (inv : Invoice) : Bool :=
  inv.id == rid &&
    (if !perms.canViewAll && perms.canViewOwn then
      inv.assignedDistributor == actorId &&
        (match inv.createdBy with
         | some c => !(adminIds.contains c)
         | none => true)
    else true)

/-- `updateOne(query, data)`: rewrite the first document matching the query. -/
def updateFirst (p : Invoice → Bool) (f : Invoice → Invoice) : List Invoice → List Invoice
  | [] => []
  | x :: xs => if p x then f x :: xs else x :: updateFirst p f xs

/-- The request body of the update route. -/
structure UpdateInput where
  invoiceCode : String
  client : Nat
  file : Nat
  assignedDistributor : Nat
  invoiceDate : Nat
  amount : Option ℚ := none
  discountAmount : Option ℚ := none
  customClientCommissionRate : Option ℚ := none
  customDistributorCommissionRate : Option ℚ := none
  status : Option String := none
deriving DecidableEq, Repr

/-- The update applied to an approved invoice: only the non-sensitive
identity/routing fields (src/routes/invoices.js:753-760). -/
def approvedUpdate (inp : UpdateInput) (inv : Invoice) : Invoice :=
  { inv with
    invoiceCode := inp.invoiceCode
    client := inp.client
    file := inp.file
    assignedDistributor := inp.assignedDistributor
    invoiceDate := inp.invoiceDate
    status := inp.status }

/-- The full re-computing update applied to a not-yet-approved invoice
(src/routes/invoices.js:773-816). -/
def fullUpdate (env : Env) (inp : UpdateInput) (inv : Invoice) : Invoice :=
  let invoiceAmount := inp.amount.getD 0
  let clientPair : ℚ × Option ℚ :=
    if jsTruthyPos inp.customClientCommissionRate then
      (inp.customClientCommissionRate.getD 0, inp.customClientCommissionRate)
    else
      (calculateCommissionRate env .client inp.client invoiceAmount, none)
  let distributorPair : ℚ × Option ℚ :=
    if jsTruthyPos inp.customDistributorCommissionRate then
      (inp.customDistributorCommissionRate.getD 0, inp.customDistributorCommissionRate)
    else
      (calculateCommissionRate env .distributor inp.assignedDistributor invoiceAmount, none)
  { inv with
    invoiceCode := inp.invoiceCode
    client := inp.client
    file := inp.file
    assignedDistributor := inp.assignedDistributor
    invoiceDate := inp.invoiceDate
    amount := invoiceAmount
    discountAmount := inp.discountAmount.getD 0
    clientCommissionRate := clientPair.1
    distributorCommissionRate := distributorPair.1
    companyCommissionRate := companyRateFor env inp.file invoiceAmount
    customClientCommissionRate := clientPair.2
    customDistributorCommissionRate := distributorPair.2
    status := inp.status }

/-- Outcome of the update route: success, or the conflated
not-found-or-forbidden rejection. -/
inductive UpdateResult where
  | success
  | notFoundOrForbidden
deriving DecidableEq, Repr

/-- `router.put('/:id')` (src/routes/invoices.js:717-830): resolve the invoice
through the visibility-scoped query; when `isApproved` apply only the
identity fields, otherwise re-compute rates and apply everything. -/
def updateInvoiceRoute (env : Env) (perms : Perms) (actorId : Nat)
    (adminIds : List Nat) (rid : Nat) (inp : UpdateInput)
    (store : List Invoice) : UpdateResult × List Invoice :=
  match store.find? (updateQueryPred perms actorId adminIds rid) with
  | none => (.notFoundOrForbidden, store)
  | some cur =>
    if cur.isApproved then
      if store.any (updateQueryPred perms actorId adminIds rid) then
        (.success, updateFirst (updateQueryPred perms actorId adminIds rid)
          (approvedUpdate inp) store)
      else (.notFoundOrForbidden, store)
    else
      if store.any (updateQueryPred perms actorId adminIds rid) then
        (.success, updateFirst (updateQueryPred perms actorId adminIds rid)
          (fullUpdate env inp) store)
      else (.notFoundOrForbidden, store)

theorem find?_some_any {p : Invoice → Bool} {store : List Invoice} {x : Invoice}
    (h : store.find? p = some x) : store.any p = true := by
  rcases List.any_eq_true.mpr ⟨x, List.mem_of_find?_eq_some h, List.find?_some h⟩ with h2
  exact h2

/-- `updateFirst` rewrites exactly the first query match; with distinct ids,
looking the match up afterwards returns its rewritten version. -/
theorem lookupById_updateFirst {p : Invoice → Bool} {f : Invoice → Invoice}
    {store : List Invoice} {a : Invoice}
    (hnd : (store.map (fun j => j.id)).Nodup)
    (hfind : store.find? p = some a) (hid : (f a).id = a.id) :
    lookupById (updateFirst p f store) a.id = some (f a) := by
  induction store with
  | nil => simp [List.find?] at hfind
  | cons x xs ih =>
    simp only [List.map_cons, List.nodup_cons] at hnd
    simp only [List.find?] at hfind
    cases hx : p x with
    | true =>
      rw [hx] at hfind
      simp only [Option.some.injEq] at hfind
      unfold updateFirst
      rw [hx]
      unfold lookupById
      simp only [List.find?]
      subst hfind
      simp [hid]
    | false =>
      rw [hx] at hfind
      have hmem : a ∈ xs := List.mem_of_find?_eq_some hfind
      have hxa : x.id ≠ a.id := by
        intro hcontra
        exact hnd.1 (hcontra ▸ List.mem_map_of_mem (fun j => j.id) hmem)
      unfold updateFirst
      rw [hx]
      unfold lookupById
      simp only [List.find?, if_false]
      have hbeq : (x.id == a.id) = false := by simp [hxa]
      rw [hbeq]
      exact ih hnd.2 hfind

/-- Claim C4: updating an approved invoice succeeds and applies only the
identity/routing fields (`invoiceCode`, `client`, `file`,
`assignedDistributor`, `invoiceDate`, `status`); every monetary and
commission field of the stored invoice keeps its pre-update value, whatever
numbers the request supplied (src/routes/invoices.js:750-771). -/
theorem update_approved_preserves_monetary (env : Env) (perms : Perms)
    (actorId : Nat) (adminIds : List Nat) (rid : Nat) (inp : UpdateInput)
    (store : List Invoice) (inv : Invoice)
    (hnd : (store.map (fun j => j.id)).Nodup)
    (hfind : store.find? (updateQueryPred perms actorId adminIds rid) = some inv)
    (happ : inv.isApproved = true) :
    (updateInvoiceRoute env perms actorId adminIds rid inp store).1 = .success ∧
    ∃ j, lookupById (updateInvoiceRoute env perms actorId adminIds rid inp store).2
        inv.id = some j ∧
      j.total = inv.total ∧
      j.amount = inv.amount ∧
      j.taxPercentage = inv.taxPercentage ∧
      j.taxAmount = inv.taxAmount ∧
      j.managementTaxPercentage = inv.managementTaxPercentage ∧
      j.managementTaxAmount = inv.managementTaxAmount ∧
      j.corporateTaxPercentage = inv.corporateTaxPercentage ∧
      j.corporateTaxAmount = inv.corporateTaxAmount ∧
      j.profitPercentage = inv.profitPercentage ∧
      j.profitAmount = inv.profitAmount ∧
      j.finalAmount = inv.finalAmount ∧
      j.discountAmount = inv.discountAmount ∧
      j.clientCommissionRate = inv.clientCommissionRate ∧
      j.distributorCommissionRate = inv.distributorCommissionRate ∧
      j.companyCommissionRate = inv.companyCommissionRate ∧
      j.customClientCommissionRate = inv.customClientCommissionRate ∧
      j.customDistributorCommissionRate = inv.customDistributorCommissionRate ∧
      j.paymentStatus = inv.paymentStatus ∧
      j.invoiceCode = inp.invoiceCode ∧
      j.client = inp.client ∧
      j.file = inp.file ∧
      j.assignedDistributor = inp.assignedDistributor ∧
      j.invoiceDate = inp.invoiceDate ∧
      j.status = inp.status := by
  have hany := find?_some_any hfind
  have hroute : updateInvoiceRoute env perms actorId adminIds rid inp store =
      (.success, updateFirst (updateQueryPred perms actorId adminIds rid)
        (approvedUpdate inp) store) := by
    unfold updateInvoiceRoute
    rw [hfind]
    simp [happ, hany]
  rw [hroute]
  refine ⟨rfl, approvedUpdate inp inv, ?_, ?_⟩
  · exact lookupById_updateFirst hnd hfind rfl
  · simp [approvedUpdate]

/-- A concrete approved invoice used by witnesses. -/
def invApproved : Invoice :=
  { id := 20
    invoiceCode := "B1"
    client := 1
    file := 6
    assignedDistributor := 2
    invoiceDate := 9
    total := 1000
    amount := 1000
    clientCommissionRate := 5
    distributorCommissionRate := 3
    companyCommissionRate := 2
    createdBy := some 7
    isApproved := true }

/-- Witness for C4: updating the approved invoice `invApproved` with a request
that supplies a different amount and custom rates succeeds and leaves every
monetary field untouched. -/
theorem update_approved_preserves_monetary_witness :
    (updateInvoiceRoute envW ⟨true, false⟩ 7 [] 20
        { invoiceCode := "B2", client := 1, file := 6, assignedDistributor := 2,
          invoiceDate := 12, amount := some 555,
          customClientCommissionRate := some 9 } [invApproved]).1 = .success ∧
    ∃ j, lookupById (updateInvoiceRoute envW ⟨true, false⟩ 7 [] 20
        { invoiceCode := "B2", client := 1, file := 6, assignedDistributor := 2,
          invoiceDate := 12, amount := some 555,
          customClientCommissionRate := some 9 } [invApproved]).2
        invApproved.id = some j ∧
      j.total = invApproved.total ∧
      j.amount = invApproved.amount ∧
      j.taxPercentage = invApproved.taxPercentage ∧
      j.taxAmount = invApproved.taxAmount ∧
      j.managementTaxPercentage = invApproved.managementTaxPercentage ∧
      j.managementTaxAmount = invApproved.managementTaxAmount ∧
      j.corporateTaxPercentage = invApproved.corporateTaxPercentage ∧
      j.corporateTaxAmount = invApproved.corporateTaxAmount ∧
      j.profitPercentage = invApproved.profitPercentage ∧
      j.profitAmount = invApproved.profitAmount ∧
      j.finalAmount = invApproved.finalAmount ∧
      j.discountAmount = invApproved.discountAmount ∧
      j.clientCommissionRate = invApproved.clientCommissionRate ∧
      j.distributorCommissionRate = invApproved.distributorCommissionRate ∧
      j.companyCommissionRate = invApproved.companyCommissionRate ∧
      j.customClientCommissionRate = invApproved.customClientCommissionRate ∧
      j.customDistributorCommissionRate = invApproved.customDistributorCommissionRate ∧
      j.paymentStatus = invApproved.paymentStatus ∧
      j.invoiceCode = "B2" ∧
      j.client = 1 ∧
      j.file = 6 ∧
      j.assignedDistributor = 2 ∧
      j.invoiceDate = 12 ∧
      j.status = none :=
  update_approved_preserves_monetary envW ⟨true, false⟩ 7 [] 20
    { invoiceCode := "B2", client := 1, file := 6, assignedDistributor := 2,
      invoiceDate := 12, amount := some 555,
      customClientCommissionRate := some 9 } [invApproved] invApproved
    (by decide) (by decide) (by decide)

/-! The single mark-payment operation, `router.post('/:id/payment/:step')`
(src/routes/invoices.js:312-370). -/

/-- The scoped query of the payment route: match by `_id`, restricted actors
must additionally be `assignedDistributor` (src/routes/invoices.js:322-327). -/
def markQueryPred (perms : Perms) (actorId : Nat) (rid : Nat) (inv : Invoice) : Bool :=
  inv.id == rid &&
    (if !perms.canViewAll && perms.canViewOwn then
      inv.assignedDistributor == actorId
    else true)

/-- Outcome of the payment-marking route, one constructor per user-facing
flash message of the handler. -/
inductive MarkResult where
  | success
  | notFoundOrForbidden
  | cannotMarkStep
  | alreadyPaid
deriving DecidableEq, Repr

/-- `router.post('/:id/payment/:step')` (src/routes/invoices.js:312-370):
scoped lookup, `canUserMarkPayment` authorization, rejection when the step is
already paid, otherwise `markPaymentStep` and save.  (The textual
`validSteps` membership check of the handler is absorbed by the `Step`
type.) -/
def markPaymentRoute (perms : Perms) (user : UserCtx) (rid : Nat) (step : Step)
    (now : Nat) (store : List Invoice) : MarkResult × List Invoice :=
  match store.find? (markQueryPred perms user.id rid) with
  | none => (.notFoundOrForbidden, store)
  | some inv =>
    if !canUserMarkPayment inv user.id user.role step then
      (.cannotMarkStep, store)
    else if (stageGet inv.paymentStatus step).isPaid then
      (.alreadyPaid, store)
    else
      (.success, saveById store (markPaymentStep inv step user.id now))

/-- Claim C5: marking a payment stage that is already paid is rejected with
the already-paid user error, and the store — hence the stage's
`{isPaid, markedBy, paidAt}` sub-record — is left completely unchanged; since
the handler is a pure function of the store, the identical rejection repeats
on every retry instead of silently succeeding
(src/routes/invoices.js:342-350). -/
theorem mark_already_paid_rejected (perms : Perms) (user : UserCtx) (rid : Nat)
    (step : Step) (now : Nat) (store : List Invoice) (inv : Invoice)
    (hfind : store.find? (markQueryPred perms user.id rid) = some inv)
    (hauth : canUserMarkPayment inv user.id user.role step = true)
    (hpaid : (stageGet inv.paymentStatus step).isPaid = true) :
    markPaymentRoute perms user rid step now store = (.alreadyPaid, store) := by
  unfold markPaymentRoute
  rw [hfind]
  simp [hauth, hpaid]

/-- A concrete invoice whose `clientToDistributor` stage is already paid. -/
def invPaidCD : Invoice :=
  { id := 21
    invoiceCode := "C1"
    client := 1
    file := 6
    assignedDistributor := 2
    invoiceDate := 9
    amount := 500
    createdBy := some 7
    paymentStatus :=
      { clientToDistributor := { isPaid := true, markedBy := some 2, paidAt := some 4 } } }

/-- Witness for C5: distributor 2 re-marking the paid `clientToDistributor`
stage of `invPaidCD` is rejected and the store is returned unchanged. -/
theorem mark_already_paid_rejected_witness :
    markPaymentRoute ⟨false, true⟩ ⟨2, Role.distributor⟩ 21 .clientToDistributor 99
      [invPaidCD] = (.alreadyPaid, [invPaidCD]) :=
  mark_already_paid_rejected ⟨false, true⟩ ⟨2, Role.distributor⟩ 21
    .clientToDistributor 99 [invPaidCD] invPaidCD (by decide) (by decide) (by decide)

/-! The mass-payment orchestrator, `router.post('/mass-payment')`
(src/routes/invoices.js:1214-1316), and the single-entity bulk endpoint
`router.post('/bulk-pay/distributor/:distributorId')`
(src/routes/invoices.js:414-486). -/

/-- The company id reachable from an invoice's populated `file.company`
(`null` when the file, its company reference, or the company document is
missing). -/
def fileCompanyId (env : Env) (fileId : Nat) : Option Nat :=
  match env.files.find? (fun f => f.id == fileId) with
  | none => none
  | some fd =>
    match fd.company with
    | none => none
    | some cid =>
      if ((env.companies.find? (fun c => c.id == cid)).isSome : Bool) then some cid
      else none

/-- The per-entity invoice selection of the mass-payment loop
(src/routes/invoices.js:1232-1270): role-gated queries for unpaid invoices of
the given client / distributor / company. -/
def selectEntityInvoices (env : Env) (user : UserCtx) (et : EntityType)
    (entityId : Nat) (store : List Invoice) : List Invoice :=
  match et with
  | .client =>
    if user.role = Role.distributor then
      store.filter (fun i => i.client == entityId &&
        i.assignedDistributor == user.id &&
        !i.paymentStatus.clientToDistributor.isPaid)
    else []
  | .distributor =>
    if user.role = Role.admin then
      store.filter (fun i => i.assignedDistributor == entityId &&
        i.createdBy == some user.id &&
        !i.paymentStatus.distributorToAdmin.isPaid)
    else []
  | .company =>
    if user.role = Role.admin then
      store.filter (fun i => i.createdBy == some user.id &&
        !i.paymentStatus.adminToCompany.isPaid &&
        fileCompanyId env i.file == some entityId)
    else []

/-- The stage transitions the mass-payment loop applies to one selected
invoice (src/routes/invoices.js:1273-1290): one stage for `client` and
`company`, **both** `clientToDistributor` and `distributorToAdmin` for
`distributor`, plus the optional `paymentNotes`. -/
def caseMark (et : EntityType) (userId now : Nat) (notes : Option String)
    (inv : Invoice) : Invoice :=
  let inv2 :=
    match et with
    | .client => markPaymentStep inv .clientToDistributor userId now
    | .distributor =>
      markPaymentStep (markPaymentStep inv .clientToDistributor userId now)
        .distributorToAdmin userId now
    | .company => markPaymentStep inv .adminToCompany userId now
  match notes with
  | some n => { inv2 with paymentNotes := some n }
  | none => inv2

/-- Result of processing one entity's selected invoices: the store after the
saves that went through, the running `totalAmount`, and whether a save threw
(aborting the remainder of this entity's batch). -/
structure RunOutcome where
  store : List Invoice
  total : ℚ
  failed : Bool
deriving DecidableEq, Repr

/-- The inner `for (const invoice of invoices)` of the mass-payment loop:
mark, save (a save whose id is in `failSet` throws), and accumulate
`totalAmount` after each successful save. -/
def runInvoices (mark : Invoice → Invoice) (failSet : List Nat) :
    List Invoice → List Invoice → ℚ → RunOutcome
  | [], store, tot => ⟨store, tot, false⟩
  | inv :: rest, store, tot =>
    if failSet.contains (mark inv).id then ⟨store, tot, true⟩
    else runInvoices mark failSet rest (saveById store (mark inv))
      (tot + (mark inv).amount)

/-- The human-readable message appended for a failing entity
(the Arabic `'خطأ في معالجة الكيان ...'` template of the handler). -/
def massErrMsg (entityId : Nat) : String :=
  "entity error " ++ toString entityId

/-- The mutable accumulators of the mass-payment handler
(`processedCount`, `totalAmount`, `errors`) together with the store. -/
structure MassAcc where
  processedCount : Nat
  totalAmount : ℚ
  errors : List String
  store : List Invoice
deriving DecidableEq, Repr

/-- One entity's batch inside the mass-payment loop: select the entity's
invoices against the current store and run the inner marking/saving loop. -/
def entityRun (env : Env) (user : UserCtx) (et : EntityType)
    (notes : Option String) (failSet : List Nat) (now : Nat) (e : Nat)
    (acc : MassAcc) : RunOutcome :=
  runInvoices (caseMark et user.id now notes) failSet
    (selectEntityInvoices env user et e acc.store) acc.store acc.totalAmount

/-- The `for (const entityId of entityIds)` loop of the mass-payment handler
(src/routes/invoices.js:1228-1300): each entity's batch runs inside its own
try/catch; a failure appends one error and skips that entity's contribution
to `processedCount`, then processing continues with the next entity. -/
def massPaymentLoop (env : Env) (user : UserCtx) (et : EntityType)
    (notes : Option String) (failSet : List Nat) (now : Nat) :
    List Nat → MassAcc → MassAcc
  | [], acc => acc
  | e :: rest, acc =>
    if (entityRun env user et notes failSet now e acc).failed then
      massPaymentLoop env user et notes failSet now rest
        ⟨acc.processedCount,
         (entityRun env user et notes failSet now e acc).total,
         acc.errors ++ [massErrMsg e],
         (entityRun env user et notes failSet now e acc).store⟩
    else
      massPaymentLoop env user et notes failSet now rest
        ⟨acc.processedCount + (selectEntityInvoices env user et e acc.store).length,
         (entityRun env user et notes failSet now e acc).total, acc.errors,
         (entityRun env user et notes failSet now e acc).store⟩

/-- `router.post('/mass-payment')` (src/routes/invoices.js:1214-1316): `none`
is the early rejection of an empty `entityIds` selection, otherwise the loop
runs with zeroed accumulators. -/
def massPayment (env : Env) (user : UserCtx) (et : EntityType)
    (entityIds : List Nat) (notes : Option String) (failSet : List Nat)
    (now : Nat) (store : List Invoice) : Option MassAcc :=
  if entityIds.isEmpty then none
  else some (massPaymentLoop env user et notes failSet now entityIds ⟨0, 0, [], store⟩)

/-- Outcome of the single-entity bulk endpoints. -/
inductive BulkResult where
  | forbidden
  | noInvoices
  | success (updatedCount : Nat)
deriving DecidableEq, Repr

/-- `router.post('/bulk-pay/distributor/:distributorId')`
(src/routes/invoices.js:414-486): admin only; selects this distributor's
unpaid `distributorToAdmin` invoices created by the admin, re-filters for
`createdBy`, then marks **only** `distributorToAdmin` on each and saves. -/
def bulkSelectDistributor (user : UserCtx) (distributorId : Nat)
    (store : List Invoice) : List Invoice :=
  (store.filter (fun i => i.assignedDistributor == distributorId &&
    i.createdBy == some user.id && !i.paymentStatus.distributorToAdmin.isPaid)).filter
    (fun i => i.createdBy.isSome && i.createdBy == some user.id)

def bulkPayDistributor (user : UserCtx) (distributorId now : Nat)
    (store : List Invoice) : BulkResult × List Invoice :=
  if user.role = Role.admin then
    if (bulkSelectDistributor user distributorId store).isEmpty then
      (.noInvoices, store)
    else
      (.success (bulkSelectDistributor user distributorId store).length,
        saveAll ((bulkSelectDistributor user distributorId store).map
          (fun i => markPaymentStep i .distributorToAdmin user.id now)) store)
  else (.forbidden, store)

/-! Auxiliary facts about the mass-payment loop. -/

theorem markPaymentStep_id (inv : Invoice) (s : Step) (u n : Nat) :
    (markPaymentStep inv s u n).id = inv.id := by
  cases s <;> rfl

theorem markPaymentStep_amount (inv : Invoice) (s : Step) (u n : Nat) :
    (markPaymentStep inv s u n).amount = inv.amount := by
  cases s <;> rfl

theorem caseMark_id (et : EntityType) (u n : Nat) (notes : Option String)
    (inv : Invoice) : (caseMark et u n notes inv).id = inv.id := by
  cases et <;> cases notes <;> rfl

theorem caseMark_amount (et : EntityType) (u n : Nat) (notes : Option String)
    (inv : Invoice) : (caseMark et u n notes inv).amount = inv.amount := by
  cases et <;> cases notes <;> rfl

theorem caseMark_distributor_paid (u n : Nat) (notes : Option String)
    (inv : Invoice) :
    (caseMark .distributor u n notes inv).paymentStatus.clientToDistributor.isPaid = true ∧
    (caseMark .distributor u n notes inv).paymentStatus.distributorToAdmin.isPaid = true := by
  cases notes <;> simp [caseMark, markPaymentStep, stageSet, stageGet]

theorem saveAll_cons (m : Invoice) (ms store : List Invoice) :
    saveAll (m :: ms) store = saveAll ms (saveById store m) := rfl

/-- With no failing saves, processing one entity's invoices just saves every
marked invoice and adds up their amounts. -/
theorem runInvoices_nilFail (mark : Invoice → Invoice) (invs store : List Invoice)
    (tot : ℚ) :
    runInvoices mark [] invs store tot =
      ⟨saveAll (invs.map mark) store,
       tot + ((invs.map (fun i => (mark i).amount)).sum), false⟩ := by
  induction invs generalizing store tot with
  | nil => simp [runInvoices, saveAll]
  | cons inv rest ih =>
    show runInvoices mark [] (inv :: rest) store tot = _
    unfold runInvoices
    simp only [List.contains, List.elem_nil, if_false, Bool.false_eq_true]
    rw [ih]
    simp [saveAll_cons, add_assoc]

theorem map_id_map_mark (f : Invoice → Invoice) (hf : ∀ i, (f i).id = i.id)
    (l : List Invoice) :
    (l.map f).map (fun j => j.id) = l.map (fun j => j.id) := by
  rw [List.map_map]
  apply List.map_congr_left
  intro a _
  simp [Function.comp, hf a]

theorem select_sublist (env : Env) (user : UserCtx) (et : EntityType)
    (e : Nat) (store : List Invoice) :
    List.Sublist (selectEntityInvoices env user et e store) store := by
  cases et with
  | client =>
    simp only [selectEntityInvoices]
    by_cases h : user.role = Role.distributor
    · rw [if_pos h]; exact List.filter_sublist _
    · rw [if_neg h]; exact List.nil_sublist _
  | distributor =>
    simp only [selectEntityInvoices]
    by_cases h : user.role = Role.admin
    · rw [if_pos h]; exact List.filter_sublist _
    · rw [if_neg h]; exact List.nil_sublist _
  | company =>
    simp only [selectEntityInvoices]
    by_cases h : user.role = Role.admin
    · rw [if_pos h]; exact List.filter_sublist _
    · rw [if_neg h]; exact List.nil_sublist _

theorem mem_select_distributor {env : Env} {user : UserCtx} {e : Nat}
    {store : List Invoice} {x : Invoice}
    (hx : x ∈ selectEntityInvoices env user .distributor e store) :
    x ∈ store ∧ x.assignedDistributor = e ∧ x.createdBy = some user.id ∧
      x.paymentStatus.distributorToAdmin.isPaid = false := by
  unfold selectEntityInvoices at hx
  by_cases h : user.role = Role.admin
  · rw [if_pos h] at hx
    obtain ⟨hmem, hpred⟩ := List.mem_filter.mp hx
    simp only [Bool.and_eq_true, beq_iff_eq, Bool.not_eq_true'] at hpred
    exact ⟨hmem, hpred.1.1, hpred.1.2, hpred.2⟩
  · rw [if_neg h] at hx
    simp at hx

theorem select_distributor_of_props {env : Env} {user : UserCtx} {e : Nat}
    {store : List Invoice} {x : Invoice} (hrole : user.role = Role.admin)
    (hmem : x ∈ store) (ha : x.assignedDistributor = e)
    (hc : x.createdBy = some user.id)
    (hd : x.paymentStatus.distributorToAdmin.isPaid = false) :
    x ∈ selectEntityInvoices env user .distributor e store := by
  unfold selectEntityInvoices
  rw [if_pos hrole]
  refine List.mem_filter.mpr ⟨hmem, ?_⟩
  simp [ha, hc, hd]

/-- Invariant argument for C7: once an invoice of the tracked distributor is
pending in the store (or already fully marked), running the remaining
entity ids of a failure-free `distributor` mass payment leaves it with both
`clientToDistributor` and `distributorToAdmin` paid. -/
theorem massLoop_distributor_marks_both (env : Env) (user : UserCtx)
    (notes : Option String) (now : Nat) (i0 : Invoice)
    (hrole : user.role = Role.admin) (hcb : i0.createdBy = some user.id)
    (hdta : i0.paymentStatus.distributorToAdmin.isPaid = false) :
    ∀ (entityIds : List Nat) (acc : MassAcc),
      (acc.store.map (fun j => j.id)).Nodup →
      ((lookupById acc.store i0.id = some i0 ∧
          i0.assignedDistributor ∈ entityIds) ∨
        (∃ j, lookupById acc.store i0.id = some j ∧
          j.paymentStatus.clientToDistributor.isPaid = true ∧
          j.paymentStatus.distributorToAdmin.isPaid = true)) →
      ∃ j, lookupById
          (massPaymentLoop env user .distributor notes [] now entityIds acc).store
          i0.id = some j ∧
        j.paymentStatus.clientToDistributor.isPaid = true ∧
        j.paymentStatus.distributorToAdmin.isPaid = true := by
  intro entityIds
  induction entityIds with
  | nil =>
    intro acc hnd hst
    rcases hst with ⟨_, hmem⟩ | hgood
    · simp at hmem
    · exact hgood
  | cons e rest ih =>
    intro acc hnd hst
    have hrun : entityRun env user .distributor notes [] now e acc =
        ⟨saveAll ((selectEntityInvoices env user .distributor e acc.store).map
            (caseMark .distributor user.id now notes)) acc.store,
         acc.totalAmount +
           (((selectEntityInvoices env user .distributor e acc.store)).map
             (fun i => (caseMark .distributor user.id now notes i).amount)).sum,
         false⟩ := by
      unfold entityRun
      exact runInvoices_nilFail _ _ _ _
    unfold massPaymentLoop
    rw [hrun]
    simp only [Bool.false_eq_true, if_false]
    set invs := selectEntityInvoices env user .distributor e acc.store with hinvs
    set store2 := saveAll (invs.map (caseMark .distributor user.id now notes))
      acc.store with hstore2
    have hidspres : store2.map (fun j => j.id) = acc.store.map (fun j => j.id) :=
      ids_saveAll _ _
    have hnd2 : (store2.map (fun j => j.id)).Nodup := by rw [hidspres]; exact hnd
    have hmarkids : (invs.map (caseMark .distributor user.id now notes)).map
        (fun j => j.id) = invs.map (fun j => j.id) :=
      map_id_map_mark _ (fun i => caseMark_id _ _ _ _ i) _
    have hndinvs : (invs.map (fun j => j.id)).Nodup :=
      ((select_sublist env user .distributor e acc.store).map _).nodup hnd
    rcases hst with ⟨hpend, hmem⟩ | ⟨j, hj, hj1, hj2⟩
    · by_cases he : i0.assignedDistributor = e
      · have hi0mem : i0 ∈ acc.store := lookupById_mem hpend
        have hsel : i0 ∈ invs :=
          select_distributor_of_props hrole hi0mem he hcb hdta
        have hmk : caseMark .distributor user.id now notes i0 ∈
            invs.map (caseMark .distributor user.id now notes) :=
          List.mem_map_of_mem _ hsel
        have hndmk : ((invs.map (caseMark .distributor user.id now notes)).map
            (fun j => j.id)).Nodup := by rw [hmarkids]; exact hndinvs
        have hlk := lookupById_saveAll_mem _ acc.store _ hndmk hmk
        rw [caseMark_id] at hlk
        rw [hpend] at hlk
        have hgood2 : ∃ j, lookupById store2 i0.id = some j ∧
            j.paymentStatus.clientToDistributor.isPaid = true ∧
            j.paymentStatus.distributorToAdmin.isPaid = true := by
          refine ⟨caseMark .distributor user.id now notes i0, by simpa using hlk, ?_, ?_⟩
          · exact (caseMark_distributor_paid _ _ _ _).1
          · exact (caseMark_distributor_paid _ _ _ _).2
        exact ih _ hnd2 (Or.inr hgood2)
      · have hfr : ∀ m ∈ invs.map (caseMark .distributor user.id now notes),
            m.id ≠ i0.id := by
          intro m hm hcontra
          obtain ⟨x, hxmem, hxeq⟩ := List.mem_map.mp hm
          obtain ⟨hxstore, hxa, _, _⟩ := mem_select_distributor hxmem
          have hxid : x.id = i0.id := by rw [← hxeq] at hcontra; rw [← caseMark_id .distributor user.id now notes x]; exact hcontra
          have hlx : lookupById acc.store x.id = some x := lookupById_of_mem hnd hxstore
          rw [hxid, hpend] at hlx
          have hxi : i0 = x := by injection hlx
          rw [← hxi] at hxa
          exact he hxa
        have hpend2 : lookupById store2 i0.id = some i0 := by
          rw [hstore2, lookupById_saveAll_not_mem _ _ _ hfr]
          exact hpend
        have hmem2 : i0.assignedDistributor ∈ rest := by
          rcases List.mem_cons.mp hmem with h | h
          · exact absurd h he
          · exact h
        exact ih _ hnd2 (Or.inl ⟨hpend2, hmem2⟩)
    · have hfr : ∀ m ∈ invs.map (caseMark .distributor user.id now notes),
          m.id ≠ i0.id := by
        intro m hm hcontra
        obtain ⟨x, hxmem, hxeq⟩ := List.mem_map.mp hm
        obtain ⟨hxstore, _, _, hxd⟩ := mem_select_distributor hxmem
        have hxid : x.id = i0.id := by rw [← hxeq] at hcontra; rw [← caseMark_id .distributor user.id now notes x]; exact hcontra
        have hlx : lookupById acc.store x.id = some x := lookupById_of_mem hnd hxstore
        rw [hxid, hj] at hlx
        have hxj : j = x := by injection hlx
        rw [← hxj] at hxd
        rw [hj2] at hxd
        exact Bool.true_eq_false.mp hxd
      have hgood2 : lookupById store2 i0.id = some j := by
        rw [hstore2, lookupById_saveAll_not_mem _ _ _ hfr]
        exact hj
      exact ih _ hnd2 (Or.inr ⟨j, hgood2, hj1, hj2⟩)

theorem markPaymentStep_dta_fields (inv : Invoice) (u n : Nat) :
    (markPaymentStep inv .distributorToAdmin u n).paymentStatus.distributorToAdmin.isPaid
      = true ∧
    (markPaymentStep inv .distributorToAdmin u n).paymentStatus.clientToDistributor
      = inv.paymentStatus.clientToDistributor := by
  simp [markPaymentStep, stageSet, stageGet]

/-- Claim C7: an intentional behavioural asymmetry.  A failure-free
`distributor`-typed mass payment run by an admin marks **both**
`clientToDistributor` and `distributorToAdmin` on every invoice it selects
(assigned to a distributor in `entityIds`, created by the actor,
`distributorToAdmin` unpaid) — src/routes/invoices.js:1272-1296 — whereas
the single-entity `bulk-pay/distributor/:distributorId` endpoint marks only
`distributorToAdmin` on its selected invoices, leaving the
`clientToDistributor` sub-record exactly as it was
(src/routes/invoices.js:436-471). -/
theorem mass_distributor_cascades_bulk_does_not (env : Env)
    (notes : Option String) (now now2 : Nat) (user user2 : UserCtx)
    (entityIds : List Nat) (store store2 : List Invoice) (i0 i2 : Invoice)
    (distributorId : Nat)
    (hroleA : user.role = Role.admin)
    (hndA : (store.map (fun j => j.id)).Nodup)
    (hmemA : i0 ∈ store)
    (hinA : i0.assignedDistributor ∈ entityIds)
    (hcbA : i0.createdBy = some user.id)
    (hdtaA : i0.paymentStatus.distributorToAdmin.isPaid = false)
    (hroleB : user2.role = Role.admin)
    (hndB : (store2.map (fun j => j.id)).Nodup)
    (hmemB : i2 ∈ store2)
    (hadB : i2.assignedDistributor = distributorId)
    (hcbB : i2.createdBy = some user2.id)
    (hdtaB : i2.paymentStatus.distributorToAdmin.isPaid = false) :
    (∃ acc j, massPayment env user .distributor entityIds notes [] now store
        = some acc ∧
      lookupById acc.store i0.id = some j ∧
      j.paymentStatus.clientToDistributor.isPaid = true ∧
      j.paymentStatus.distributorToAdmin.isPaid = true) ∧
    (∃ j, lookupById (bulkPayDistributor user2 distributorId now2 store2).2 i2.id
        = some j ∧
      j.paymentStatus.distributorToAdmin.isPaid = true ∧
      j.paymentStatus.clientToDistributor = i2.paymentStatus.clientToDistributor) := by
  constructor
  · have hne : entityIds.isEmpty = false := by
      cases entityIds with
      | nil => simp at hinA
      | cons a l => rfl
    have hlk : lookupById store i0.id = some i0 := lookupById_of_mem hndA hmemA
    obtain ⟨j, hj, hj1, hj2⟩ :=
      massLoop_distributor_marks_both env user notes now i0 hroleA hcbA hdtaA
        entityIds ⟨0, 0, [], store⟩ hndA (Or.inl ⟨hlk, hinA⟩)
    refine ⟨massPaymentLoop env user .distributor notes [] now entityIds
      ⟨0, 0, [], store⟩, j, ?_, hj, hj1, hj2⟩
    unfold massPayment
    rw [hne]
    simp
  · have hsel : i2 ∈ bulkSelectDistributor user2 distributorId store2 := by
      unfold bulkSelectDistributor
      refine List.mem_filter.mpr ⟨List.mem_filter.mpr ⟨hmemB, ?_⟩, ?_⟩
      · simp [hadB, hcbB, hdtaB]
      · simp [hcbB]
    have hne : (bulkSelectDistributor user2 distributorId store2).isEmpty = false := by
      cases hB : bulkSelectDistributor user2 distributorId store2 with
      | nil => rw [hB] at hsel; simp at hsel
      | cons a l => rfl
    have hroute : bulkPayDistributor user2 distributorId now2 store2 =
        (.success (bulkSelectDistributor user2 distributorId store2).length,
          saveAll ((bulkSelectDistributor user2 distributorId store2).map
            (fun i => markPaymentStep i .distributorToAdmin user2.id now2)) store2) := by
      unfold bulkPayDistributor
      rw [if_pos hroleB, hne]
      simp
    rw [hroute]
    have hsub : List.Sublist (bulkSelectDistributor user2 distributorId store2) store2 := by
      unfold bulkSelectDistributor
      exact (List.filter_sublist _).trans (List.filter_sublist _)
    have hndsel : ((bulkSelectDistributor user2 distributorId store2).map
        (fun j => j.id)).Nodup := (hsub.map _).nodup hndB
    have hndmk : (((bulkSelectDistributor user2 distributorId store2).map
        (fun i => markPaymentStep i .distributorToAdmin user2.id now2)).map
        (fun j => j.id)).Nodup := by
      rw [map_id_map_mark _ (fun i => markPaymentStep_id i _ _ _) _]
      exact hndsel
    have hmk := lookupById_saveAll_mem
      ((bulkSelectDistributor user2 distributorId store2).map
        (fun i => markPaymentStep i .distributorToAdmin user2.id now2)) store2
      (markPaymentStep i2 .distributorToAdmin user2.id now2) hndmk
      (List.mem_map_of_mem _ hsel)
    rw [markPaymentStep_id] at hmk
    rw [lookupById_of_mem hndB hmemB] at hmk
    refine ⟨markPaymentStep i2 .distributorToAdmin user2.id now2, by simpa using hmk,
      (markPaymentStep_dta_fields i2 user2.id now2).1,
      (markPaymentStep_dta_fields i2 user2.id now2).2⟩

/-- Concrete invoices for the C7 witness: both assigned to distributor 2,
created by admin 7, with `distributorToAdmin` unpaid. -/
def invMassA : Invoice :=
  { id := 30
    invoiceCode := "M1"
    client := 1
    file := 6
    assignedDistributor := 2
    invoiceDate := 9
    amount := 100
    createdBy := some 7 }

/-- Second concrete invoice for the C7 witness. -/
def invMassB : Invoice :=
  { id := 31
    invoiceCode := "M2"
    client := 1
    file := 6
    assignedDistributor := 2
    invoiceDate := 9
    amount := 200
    createdBy := some 7 }

/-- Witness for C7: admin 7 mass-pays distributor 2 (both stages of `invMassA`
end up paid) while the single bulk endpoint on a copy of the store marks only
`distributorToAdmin` of `invMassB`. -/
theorem mass_distributor_cascades_bulk_does_not_witness :
    (∃ acc j, massPayment envW ⟨7, Role.admin⟩ .distributor [2] none [] 50 [invMassA]
        = some acc ∧
      lookupById acc.store invMassA.id = some j ∧
      j.paymentStatus.clientToDistributor.isPaid = true ∧
      j.paymentStatus.distributorToAdmin.isPaid = true) ∧
    (∃ j, lookupById (bulkPayDistributor ⟨7, Role.admin⟩ 2 51 [invMassB]).2 invMassB.id
        = some j ∧
      j.paymentStatus.distributorToAdmin.isPaid = true ∧
      j.paymentStatus.clientToDistributor = invMassB.paymentStatus.clientToDistributor) :=
  mass_distributor_cascades_bulk_does_not envW none 50 51 ⟨7, Role.admin⟩
    ⟨7, Role.admin⟩ [2] [invMassA] [invMassB] invMassA invMassB 2
    rfl (by decide) (by decide) (by decide) (by decide) (by decide)
    rfl (by decide) (by decide) (by decide) (by decide) (by decide)

/-! Partial-failure semantics of the mass-payment loop (claim C8). -/

/-- Splitting an inner batch at its first failing save: the prefix `P` is
marked and saved (and summed into `totalAmount`), the failing invoice `f`
aborts the batch, and the remainder `R` is never attempted. -/
theorem runInvoices_fail_split (mark : Invoice → Invoice)
    (hid : ∀ i, (mark i).id = i.id) (fs : List Nat) (P : List Invoice)
    (f : Invoice) (R store : List Invoice) (tot : ℚ)
    (hP : ∀ p ∈ P, fs.contains p.id = false) (hf : fs.contains f.id = true) :
    runInvoices mark fs (P ++ f :: R) store tot =
      ⟨saveAll (P.map mark) store,
       tot + ((P.map (fun p => (mark p).amount)).sum), true⟩ := by
  induction P generalizing store tot with
  | nil =>
    show runInvoices mark fs (f :: R) store tot = _
    unfold runInvoices
    rw [hid f, hf]
    simp [saveAll]
  | cons p ps ih =>
    show runInvoices mark fs (p :: (ps ++ f :: R)) store tot = _
    unfold runInvoices
    rw [hid p, hP p (List.mem_cons_self _ _)]
    simp only [Bool.false_eq_true, if_false]
    rw [ih _ _ (fun x hx => hP x (List.mem_cons_of_mem _ hx))]
    simp [saveAll_cons, add_assoc]

/-- The batch outcome does not depend on the incoming `totalAmount`
accumulator except additively. -/
theorem runInvoices_total_shift (mark : Invoice → Invoice) (fs : List Nat)
    (invs store : List Invoice) (tot : ℚ) :
    runInvoices mark fs invs store tot =
      ⟨(runInvoices mark fs invs store 0).store,
       tot + (runInvoices mark fs invs store 0).total,
       (runInvoices mark fs invs store 0).failed⟩ := by
  induction invs generalizing store tot with
  | nil => simp [runInvoices]
  | cons inv rest ih =>
    by_cases hc : fs.contains (mark inv).id = true
    · unfold runInvoices
      rw [hc]
      simp
    · have hc' : fs.contains (mark inv).id = false := by simpa using hc
      unfold runInvoices
      rw [hc']
      simp only [Bool.false_eq_true, if_false]
      rw [ih (saveById store (mark inv)) (tot + (mark inv).amount),
          ih (saveById store (mark inv)) (0 + (mark inv).amount)]
      simp [zero_add, add_assoc]

/-- Unfolding equation of the mass-payment loop on a non-empty entity list. -/
theorem massPaymentLoop_cons (env : Env) (user : UserCtx) (et : EntityType)
    (notes : Option String) (failSet : List Nat) (now e : Nat) (rest : List Nat)
    (acc : MassAcc) :
    massPaymentLoop env user et notes failSet now (e :: rest) acc =
      if (entityRun env user et notes failSet now e acc).failed then
        massPaymentLoop env user et notes failSet now rest
          ⟨acc.processedCount, (entityRun env user et notes failSet now e acc).total,
           acc.errors ++ [massErrMsg e],
           (entityRun env user et notes failSet now e acc).store⟩
      else
        massPaymentLoop env user et notes failSet now rest
          ⟨acc.processedCount + (selectEntityInvoices env user et e acc.store).length,
           (entityRun env user et notes failSet now e acc).total, acc.errors,
           (entityRun env user et notes failSet now e acc).store⟩ := rfl

/-- The mass-payment loop accumulators are additive in the starting state:
running with accumulated counters equals running from zero and adding. -/
theorem massLoop_shift (env : Env) (user : UserCtx) (et : EntityType)
    (notes : Option String) (failSet : List Nat) (now : Nat) :
    ∀ (ids : List Nat) (pc : Nat) (tot : ℚ) (errs : List String)
      (store : List Invoice),
      massPaymentLoop env user et notes failSet now ids ⟨pc, tot, errs, store⟩ =
        ⟨pc + (massPaymentLoop env user et notes failSet now ids
            ⟨0, 0, [], store⟩).processedCount,
         tot + (massPaymentLoop env user et notes failSet now ids
            ⟨0, 0, [], store⟩).totalAmount,
         errs ++ (massPaymentLoop env user et notes failSet now ids
            ⟨0, 0, [], store⟩).errors,
         (massPaymentLoop env user et notes failSet now ids
            ⟨0, 0, [], store⟩).store⟩ := by
  intro ids
  induction ids with
  | nil =>
    intro pc tot errs store
    simp [massPaymentLoop]
  | cons e rest ih =>
    intro pc tot errs store
    have hrunA : entityRun env user et notes failSet now e ⟨pc, tot, errs, store⟩ =
        ⟨(entityRun env user et notes failSet now e ⟨0, 0, [], store⟩).store,
         tot + (entityRun env user et notes failSet now e ⟨0, 0, [], store⟩).total,
         (entityRun env user et notes failSet now e ⟨0, 0, [], store⟩).failed⟩ := by
      unfold entityRun
      exact runInvoices_total_shift _ _ _ _ _
    set r0 := entityRun env user et notes failSet now e ⟨0, 0, [], store⟩ with hr0
    by_cases hc : r0.failed = true
    · have hL : massPaymentLoop env user et notes failSet now (e :: rest)
          ⟨pc, tot, errs, store⟩ =
          massPaymentLoop env user et notes failSet now rest
            ⟨pc, tot + r0.total, errs ++ [massErrMsg e], r0.store⟩ := by
        rw [massPaymentLoop_cons, hrunA]
        simp [hc]
      have hR : massPaymentLoop env user et notes failSet now (e :: rest)
          ⟨0, 0, [], store⟩ =
          massPaymentLoop env user et notes failSet now rest
            ⟨0, r0.total, [massErrMsg e], r0.store⟩ := by
        rw [massPaymentLoop_cons, ← hr0]
        simp [hc]
      rw [hL, hR, ih pc (tot + r0.total) (errs ++ [massErrMsg e]) r0.store,
          ih 0 r0.total [massErrMsg e] r0.store]
      simp [add_assoc]
    · simp only [Bool.not_eq_true] at hc
      have hL : massPaymentLoop env user et notes failSet now (e :: rest)
          ⟨pc, tot, errs, store⟩ =
          massPaymentLoop env user et notes failSet now rest
            ⟨pc + (selectEntityInvoices env user et e store).length,
             tot + r0.total, errs, r0.store⟩ := by
        rw [massPaymentLoop_cons, hrunA]
        simp [hc]
      have hR : massPaymentLoop env user et notes failSet now (e :: rest)
          ⟨0, 0, [], store⟩ =
          massPaymentLoop env user et notes failSet now rest
            ⟨0 + (selectEntityInvoices env user et e store).length,
             r0.total, [], r0.store⟩ := by
        rw [massPaymentLoop_cons, ← hr0]
        simp [hc]
      rw [hL, hR, ih (pc + (selectEntityInvoices env user et e store).length)
            (tot + r0.total) errs r0.store,
          ih (0 + (selectEntityInvoices env user et e store).length)
            r0.total [] r0.store]
      simp [add_assoc]

/-- Claim C8 (amended).  First conjunct: a mass-payment batch whose selected
invoices split as `P ++ f :: R` with the saves of `P` succeeding and the
save of `f` failing yields one error for the whole batch, contributes
nothing to `processedCount` (even for the already-saved `P`), leaves `f` and
the never-attempted `R` untouched, while every invoice of `P` is saved with
the targeted stage transitions applied and `totalAmount` sums exactly the
amounts of `P`.  Second conjunct: the loop then continues with the remaining
entity ids on the post-batch store, adding their counts, amounts and errors
— a failure never aborts processing of the remaining entities. -/
theorem mass_payment_partial_failure_semantics :
    (∀ (env : Env) (user : UserCtx) (et : EntityType) (notes : Option String)
        (now : Nat) (failSet : List Nat) (e : Nat)
        (store P R : List Invoice) (f : Invoice),
      (store.map (fun j => j.id)).Nodup →
      selectEntityInvoices env user et e store = P ++ f :: R →
      (∀ p ∈ P, failSet.contains p.id = false) →
      failSet.contains f.id = true →
      ∃ acc, massPayment env user et [e] notes failSet now store = some acc ∧
        acc.processedCount = 0 ∧
        acc.errors = [massErrMsg e] ∧
        acc.totalAmount = ((P.map (fun p => p.amount)).sum) ∧
        (∀ p ∈ P, lookupById acc.store p.id =
          some (caseMark et user.id now notes p)) ∧
        lookupById acc.store f.id = some f ∧
        (∀ q ∈ R, lookupById acc.store q.id = some q)) ∧
    (∀ (env : Env) (user : UserCtx) (et : EntityType) (notes : Option String)
        (now : Nat) (failSet : List Nat) (e : Nat) (rest : List Nat)
        (store : List Invoice),
      massPaymentLoop env user et notes failSet now (e :: rest) ⟨0, 0, [], store⟩ =
        ⟨(if (entityRun env user et notes failSet now e ⟨0, 0, [], store⟩).failed
            then 0 else (selectEntityInvoices env user et e store).length) +
          (massPaymentLoop env user et notes failSet now rest
            ⟨0, 0, [],
              (entityRun env user et notes failSet now e ⟨0, 0, [], store⟩).store⟩).processedCount,
         (entityRun env user et notes failSet now e ⟨0, 0, [], store⟩).total +
          (massPaymentLoop env user et notes failSet now rest
            ⟨0, 0, [],
              (entityRun env user et notes failSet now e ⟨0, 0, [], store⟩).store⟩).totalAmount,
         (if (entityRun env user et notes failSet now e ⟨0, 0, [], store⟩).failed
            then [massErrMsg e] else []) ++
          (massPaymentLoop env user et notes failSet now rest
            ⟨0, 0, [],
              (entityRun env user et notes failSet now e ⟨0, 0, [], store⟩).store⟩).errors,
         (massPaymentLoop env user et notes failSet now rest
            ⟨0, 0, [],
              (entityRun env user et notes failSet now e ⟨0, 0, [], store⟩).store⟩).store⟩) := by
  constructor
  · intro env user et notes now failSet e store P R f hnd hsplit hP hf
    have hmarkP : ∀ p ∈ P, failSet.contains
        ((caseMark et user.id now notes p)).id = false := by
      intro p hp
      rw [caseMark_id]
      exact hP p hp
    have hrun : entityRun env user et notes failSet now e ⟨0, 0, [], store⟩ =
        ⟨saveAll (P.map (caseMark et user.id now notes)) store,
         0 + ((P.map (fun p => (caseMark et user.id now notes p).amount)).sum),
         true⟩ := by
      unfold entityRun
      show runInvoices _ failSet
        (selectEntityInvoices env user et e store) store 0 = _
      rw [hsplit]
      exact runInvoices_fail_split _ (fun i => caseMark_id _ _ _ _ i) _ _ _ _ _ _ hP hf
    have hsubsel : List.Sublist (P ++ f :: R) store := by
      rw [← hsplit]
      exact select_sublist env user et e store
    have hndsel : ((P ++ f :: R).map (fun j => j.id)).Nodup :=
      (hsubsel.map _).nodup hnd
    have hndP : (P.map (fun j => j.id)).Nodup := by
      have : List.Sublist (P.map (fun j => j.id))
          ((P ++ f :: R).map (fun j => j.id)) :=
        (List.sublist_append_left P (f :: R)).map _
      exact this.nodup hndsel
    have hfid : f.id ∉ P.map (fun j => j.id) := by
      intro hcontra
      have : ¬ (P.map (fun j => j.id)).Disjoint ((f :: R).map (fun j => j.id)) := by
        intro hdisj
        exact hdisj hcontra (by simp)
      rw [List.map_append] at hndsel
      exact this (List.disjoint_of_nodup_append hndsel)
    have hacc : massPayment env user et [e] notes failSet now store =
        some ⟨0, 0 + ((P.map (fun p => (caseMark et user.id now notes p).amount)).sum),
          [] ++ [massErrMsg e],
          saveAll (P.map (caseMark et user.id now notes)) store⟩ := by
      unfold massPayment
      simp only [List.isEmpty_cons, Bool.false_eq_true, if_false]
      unfold massPaymentLoop
      rw [hrun]
      simp [massPaymentLoop]
    refine ⟨_, hacc, rfl, by simp, ?_, ?_, ?_, ?_⟩
    · show 0 + ((P.map (fun p => (caseMark et user.id now notes p).amount)).sum) = _
      rw [zero_add]
      congr 1
      apply List.map_congr_left
      intro p _
      exact caseMark_amount _ _ _ _ p
    · intro p hp
      show lookupById (saveAll (P.map (caseMark et user.id now notes)) store) p.id = _
      have hndmk : ((P.map (caseMark et user.id now notes)).map
          (fun j => j.id)).Nodup := by
        rw [map_id_map_mark _ (fun i => caseMark_id _ _ _ _ i) _]
        exact hndP
      have h := lookupById_saveAll_mem (P.map (caseMark et user.id now notes))
        store (caseMark et user.id now notes p) hndmk (List.mem_map_of_mem _ hp)
      rw [caseMark_id] at h
      have hpmem : p ∈ store := hsubsel.subset (by simp [hp])
      rw [lookupById_of_mem hnd hpmem] at h
      simpa using h
    · show lookupById (saveAll (P.map (caseMark et user.id now notes)) store) f.id = _
      have hfr : ∀ m ∈ P.map (caseMark et user.id now notes), m.id ≠ f.id := by
        intro m hm hcontra
        obtain ⟨x, hxmem, hxeq⟩ := List.mem_map.mp hm
        apply hfid
        rw [← hcontra, ← hxeq, caseMark_id]
        exact List.mem_map_of_mem _ hxmem
      rw [lookupById_saveAll_not_mem _ _ _ hfr]
      exact lookupById_of_mem hnd (hsubsel.subset (by simp))
    · intro q hq
      show lookupById (saveAll (P.map (caseMark et user.id now notes)) store) q.id = _
      have hqid : q.id ∉ P.map (fun j => j.id) := by
        intro hcontra
        rw [List.map_append] at hndsel
        have hdisj := List.disjoint_of_nodup_append hndsel
        refine hdisj hcontra ?_
        simp only [List.map_cons, List.mem_cons]
        right
        exact List.mem_map_of_mem _ hq
      have hfr : ∀ m ∈ P.map (caseMark et user.id now notes), m.id ≠ q.id := by
        intro m hm hcontra
        obtain ⟨x, hxmem, hxeq⟩ := List.mem_map.mp hm
        apply hqid
        rw [← hcontra, ← hxeq, caseMark_id]
        exact List.mem_map_of_mem _ hxmem
      rw [lookupById_saveAll_not_mem _ _ _ hfr]
      exact lookupById_of_mem hnd (hsubsel.subset (by simp; right; right; exact hq))
  · intro env user et notes now failSet e rest store
    rw [massPaymentLoop_cons]
    by_cases hc : (entityRun env user et notes failSet now e ⟨0, 0, [], store⟩).failed = true
    · simp only [hc, if_true, List.nil_append]
      rw [massLoop_shift env user et notes failSet now rest 0
        ((entityRun env user et notes failSet now e ⟨0, 0, [], store⟩).total)
        [massErrMsg e]
        ((entityRun env user et notes failSet now e ⟨0, 0, [], store⟩).store)]
    · simp only [Bool.not_eq_true] at hc
      simp only [hc, Bool.false_eq_true, if_false, List.nil_append]
      rw [massLoop_shift env user et notes failSet now rest
        (0 + (selectEntityInvoices env user et e store).length)
        ((entityRun env user et notes failSet now e ⟨0, 0, [], store⟩).total)
        []
        ((entityRun env user et notes failSet now e ⟨0, 0, [], store⟩).store)]
      simp

/-- First invoice of the C8 scenario (save succeeds). -/
def invF1 : Invoice :=
  { id := 40
    invoiceCode := "F1"
    client := 10
    file := 6
    assignedDistributor := 1
    invoiceDate := 9
    amount := 100
    createdBy := some 7 }

/-- Second invoice of the C8 scenario (its save throws: id 41 is in the
failure set). -/
def invF2 : Invoice :=
  { id := 41
    invoiceCode := "F2"
    client := 10
    file := 6
    assignedDistributor := 1
    invoiceDate := 9
    amount := 200
    createdBy := some 7 }

/-- Counterexample to claim C8 as stated.  Distributor 1 mass-pays client 10
over a store of two matching invoices (`N = 2`), the save of the second one
fails (`K = 1`): the claim demands `processedCount = N - K = 1`, but the
per-entity try/catch of src/routes/invoices.js:1228-1300 skips the whole
batch's `processedCount += invoices.length`, so the handler reports
`processedCount = 0` even though the first invoice was transitioned
(`clientToDistributor.isPaid = true` in storage). -/
theorem mass_processed_count_counterexample :
    ((massPayment envW ⟨1, Role.distributor⟩ EntityType.client [10] none [41] 60
        [invF1, invF2]).map (fun acc => acc.processedCount)) = some 0 ∧
    ((massPayment envW ⟨1, Role.distributor⟩ EntityType.client [10] none [41] 60
        [invF1, invF2]).map (fun acc => acc.errors.length)) = some 1 ∧
    ((massPayment envW ⟨1, Role.distributor⟩ EntityType.client [10] none [41] 60
        [invF1, invF2]).map (fun acc =>
          (lookupById acc.store 40).map
            (fun j => j.paymentStatus.clientToDistributor.isPaid))) =
      some (some true) ∧
    (2 - 1 : Nat) ≠ 0 := by
  refine ⟨?_, ?_, ?_, by decide⟩ <;> decide

/-- Witness for the amended C8: the concrete two-invoice scenario, with the
batch split `P = [invF1]`, failing invoice `invF2`, remainder `[]`. -/
theorem mass_payment_partial_failure_semantics_witness :
    ∃ acc, massPayment envW ⟨1, Role.distributor⟩ EntityType.client [10] none [41] 60
        [invF1, invF2] = some acc ∧
      acc.processedCount = 0 ∧
      acc.errors = [massErrMsg 10] ∧
      acc.totalAmount = (([invF1].map (fun p => p.amount)).sum) ∧
      (∀ p ∈ [invF1], lookupById acc.store p.id =
        some (caseMark EntityType.client (UserCtx.mk 1 Role.distributor).id 60 none p)) ∧
      lookupById acc.store invF2.id = some invF2 ∧
      (∀ q ∈ ([] : List Invoice), lookupById acc.store q.id = some q) :=
  mass_payment_partial_failure_semantics.1 envW ⟨1, Role.distributor⟩
    EntityType.client none 60 [41] 10 [invF1, invF2] [invF1] [] invF2
    (by decide) (by decide) (by decide) (by decide)

/-! The bulk-mark-paid operation, `router.post('/bulk-mark-paid')`
(src/routes/invoices.js:1452-1515). -/

/-- The role-driven `paymentStep` choice of the bulk-mark-paid loop
(src/routes/invoices.js:1477-1490): a distributor marks
`clientToDistributor` when unpaid; an admin marks `adminToCompany` when
unpaid, otherwise `distributorToAdmin` when unpaid; nothing otherwise. -/
def stepChoice (user : UserCtx) (inv : Invoice) : Option Step :=
  match user.role with
  | .distributor =>
    if !inv.paymentStatus.clientToDistributor.isPaid then
      some .clientToDistributor
    else none
  | .admin =>
    if !inv.paymentStatus.adminToCompany.isPaid then some .adminToCompany
    else if !inv.paymentStatus.distributorToAdmin.isPaid then
      some .distributorToAdmin
    else none

/-- The `for (const invoiceId of invoiceIds)` loop of bulk-mark-paid: fetch,
choose a step by role, mark-and-save when a step was chosen, count it. -/
def bulkMarkPaidLoop (user : UserCtx) (now : Nat) :
    List Nat → List Invoice → Nat → Nat × List Invoice
  | [], store, count => (count, store)
  | invoiceId :: rest, store, count =>
    match lookupById store invoiceId with
    | none => bulkMarkPaidLoop user now rest store count
    | some inv =>
      match stepChoice user inv with
      | some st =>
        bulkMarkPaidLoop user now rest
          (saveById store (markPaymentStep inv st user.id now)) (count + 1)
      | none => bulkMarkPaidLoop user now rest store count

/-- `router.post('/bulk-mark-paid')`: `none` is the early rejection of an
empty `invoiceIds` payload. -/
def bulkMarkPaid (user : UserCtx) (invoiceIds : List Nat) (now : Nat)
    (store : List Invoice) : Option (Nat × List Invoice) :=
  if invoiceIds.isEmpty then none
  else some (bulkMarkPaidLoop user now invoiceIds store 0)

/-- What one pass over an invoice does to it, as a pure per-document
function: mark the role-chosen step if any, else leave it alone. -/
def roleTransform (user : UserCtx) (now : Nat) (inv : Invoice) : Invoice :=
  match stepChoice user inv with
  | some st => markPaymentStep inv st user.id now
  | none => inv

/-- Is the invoice id counted by the bulk-mark-paid loop against a given
store: it exists and a step is eligible. -/
def eligibleB (user : UserCtx) (store : List Invoice) (k : Nat) : Bool :=
  match lookupById store k with
  | none => false
  | some inv => (stepChoice user inv).isSome

theorem lookupById_saveById_ne (store : List Invoice) (v : Invoice) (k : Nat)
    (h : v.id ≠ k) :
    lookupById (saveById store v) k = lookupById store k := by
  rw [lookupById_saveById]
  cases hl : lookupById store k with
  | none => rfl
  | some j =>
    have hj : j.id = k := lookupById_some_id hl
    simp [hj, Ne.symm h]

/-- Unfolding equation of the bulk-mark-paid loop on a non-empty id list. -/
theorem bulkLoop_cons_eq (user : UserCtx) (now i : Nat) (rest : List Nat)
    (store : List Invoice) (count : Nat) :
    bulkMarkPaidLoop user now (i :: rest) store count =
      match lookupById store i with
      | none => bulkMarkPaidLoop user now rest store count
      | some inv =>
        match stepChoice user inv with
        | some st =>
          bulkMarkPaidLoop user now rest
            (saveById store (markPaymentStep inv st user.id now)) (count + 1)
        | none => bulkMarkPaidLoop user now rest store count := rfl

theorem bulkLoop_cons_none (user : UserCtx) (now i : Nat) (rest : List Nat)
    (store : List Invoice) (count : Nat) (hl : lookupById store i = none) :
    bulkMarkPaidLoop user now (i :: rest) store count =
      bulkMarkPaidLoop user now rest store count := by
  rw [bulkLoop_cons_eq]
  simp only [hl]

theorem bulkLoop_cons_skip (user : UserCtx) (now i : Nat) (rest : List Nat)
    (store : List Invoice) (count : Nat) (inv : Invoice)
    (hl : lookupById store i = some inv) (hs : stepChoice user inv = none) :
    bulkMarkPaidLoop user now (i :: rest) store count =
      bulkMarkPaidLoop user now rest store count := by
  rw [bulkLoop_cons_eq]
  simp only [hl, hs]

theorem bulkLoop_cons_mark (user : UserCtx) (now i : Nat) (rest : List Nat)
    (store : List Invoice) (count : Nat) (inv : Invoice) (st : Step)
    (hl : lookupById store i = some inv) (hs : stepChoice user inv = some st) :
    bulkMarkPaidLoop user now (i :: rest) store count =
      bulkMarkPaidLoop user now rest
        (saveById store (markPaymentStep inv st user.id now)) (count + 1) := by
  rw [bulkLoop_cons_eq]
  simp only [hl, hs]

/-- Ids not in the request are never touched by the bulk-mark-paid loop. -/
theorem bulkLoop_frame (user : UserCtx) (now : Nat) :
    ∀ (ids : List Nat) (store : List Invoice) (count k : Nat), k ∉ ids →
      lookupById (bulkMarkPaidLoop user now ids store count).2 k =
        lookupById store k := by
  intro ids
  induction ids with
  | nil => intro store count k _; rfl
  | cons i rest ih =>
    intro store count k hk
    have hkr : k ∉ rest := fun h => hk (List.mem_cons_of_mem _ h)
    have hki : k ≠ i := fun h => hk (h ▸ List.mem_cons_self _ _)
    cases hl : lookupById store i with
    | none =>
      rw [bulkLoop_cons_none user now i rest store count hl]
      exact ih store count k hkr
    | some inv =>
      cases hs : stepChoice user inv with
      | none =>
        rw [bulkLoop_cons_skip user now i rest store count inv hl hs]
        exact ih store count k hkr
      | some st =>
        rw [bulkLoop_cons_mark user now i rest store count inv st hl hs]
        rw [ih _ _ k hkr]
        apply lookupById_saveById_ne
        rw [markPaymentStep_id]
        rw [lookupById_some_id hl]
        exact fun h => hki h.symm

/-- The bulk-mark-paid loop on duplicate-free ids acts on each requested
invoice as the independent per-document `roleTransform`, and counts exactly
the eligible ids. -/
theorem bulkLoop_spec (user : UserCtx) (now : Nat) :
    ∀ (ids : List Nat) (store : List Invoice) (count : Nat),
      ids.Nodup → (store.map (fun j => j.id)).Nodup →
      ((bulkMarkPaidLoop user now ids store count).1 =
        count + (ids.filter (fun k => eligibleB user store k)).length) ∧
      (∀ k ∈ ids, lookupById (bulkMarkPaidLoop user now ids store count).2 k =
        (lookupById store k).map (roleTransform user now)) := by
  intro ids
  induction ids with
  | nil =>
    intro store count _ _
    constructor
    · simp [bulkMarkPaidLoop]
    · intro k hk; simp at hk
  | cons i rest ih =>
    intro store count hnodup hnd
    obtain ⟨hir, hrest⟩ := List.nodup_cons.mp hnodup
    cases hl : lookupById store i with
    | none =>
      rw [bulkLoop_cons_none user now i rest store count hl]
      have hel : eligibleB user store i = false := by
        unfold eligibleB
        rw [hl]
      obtain ⟨ihc, ihl⟩ := ih store count hrest hnd
      refine ⟨?_, ?_⟩
      · rw [ihc]
        simp [List.filter, hel]
      · intro k hk
        rcases List.mem_cons.mp hk with h | h
        · rw [h]
          rw [bulkLoop_frame user now rest store count i hir]
          rw [hl]
          rfl
        · exact ihl k h
    | some inv =>
      have hinvid : inv.id = i := lookupById_some_id hl
      cases hs : stepChoice user inv with
      | none =>
        rw [bulkLoop_cons_skip user now i rest store count inv hl hs]
        have hel : eligibleB user store i = false := by
          unfold eligibleB
          simp [hl, hs]
        obtain ⟨ihc, ihl⟩ := ih store count hrest hnd
        refine ⟨?_, ?_⟩
        · rw [ihc]
          simp [List.filter, hel]
        · intro k hk
          rcases List.mem_cons.mp hk with h | h
          · rw [h]
            rw [bulkLoop_frame user now rest store count i hir]
            rw [hl]
            show some inv = some (roleTransform user now inv)
            unfold roleTransform
            rw [hs]
          · exact ihl k h
      | some st =>
        rw [bulkLoop_cons_mark user now i rest store count inv st hl hs]
        have hel : eligibleB user store i = true := by
          unfold eligibleB
          simp [hl, hs]
        have hmarkid : (markPaymentStep inv st user.id now).id = i := by
          rw [markPaymentStep_id]; exact hinvid
        have hnd2 : ((saveById store (markPaymentStep inv st user.id now)).map
            (fun j => j.id)).Nodup := by
          rw [ids_saveById]; exact hnd
        have hsame : ∀ k ∈ rest, lookupById
            (saveById store (markPaymentStep inv st user.id now)) k =
            lookupById store k := by
          intro k hk
          apply lookupById_saveById_ne
          rw [hmarkid]
          intro h
          exact hir (h ▸ hk)
        have hsameel : ∀ k ∈ rest, eligibleB user
            (saveById store (markPaymentStep inv st user.id now)) k =
            eligibleB user store k := by
          intro k hk
          unfold eligibleB
          rw [hsame k hk]
        obtain ⟨ihc, ihl⟩ := ih (saveById store (markPaymentStep inv st user.id now))
          (count + 1) hrest hnd2
        refine ⟨?_, ?_⟩
        · rw [ihc]
          rw [List.filter_congr hsameel]
          simp [List.filter, hel, Nat.add_assoc, Nat.add_comm 1]
        · intro k hk
          rcases List.mem_cons.mp hk with h | h
          · rw [h]
            rw [bulkLoop_frame user now rest _ (count + 1) i hir]
            rw [lookupById_saveById]
            rw [hl]
            show some (if inv.id == (markPaymentStep inv st user.id now).id
              then markPaymentStep inv st user.id now else inv) = _
            rw [markPaymentStep_id]
            simp only [beq_self_eq_true, if_true]
            show _ = some (roleTransform user now inv)
            unfold roleTransform
            rw [hs]
          · rw [ihl k h, hsame k h]

/-- Invoice for the C9 counterexample: all three stages unpaid. -/
def invC9 : Invoice :=
  { id := 5
    invoiceCode := "D1"
    client := 1
    file := 6
    assignedDistributor := 2
    invoiceDate := 9
    amount := 50
    createdBy := some 7 }

/-- Counterexample to claim C9 as stated: with the duplicate request
`invoiceIds = [5, 5]`, an admin's single bulk-mark-paid call marks **two**
stages of invoice 5 — the first pass marks `adminToCompany`, the second pass
re-fetches the saved document and marks `distributorToAdmin` — and reports
`updatedCount = 2`, contradicting "at most one payment stage is marked per
call" (src/routes/invoices.js:1467-1501). -/
theorem bulk_mark_two_stages_counterexample :
    invC9.paymentStatus.adminToCompany.isPaid = false ∧
    invC9.paymentStatus.distributorToAdmin.isPaid = false ∧
    ((bulkMarkPaid ⟨7, Role.admin⟩ [5, 5] 80 [invC9]).map (fun res =>
      (lookupById res.2 5).map (fun j =>
        (j.paymentStatus.adminToCompany.isPaid,
         j.paymentStatus.distributorToAdmin.isPaid)))) = some (some (true, true)) ∧
    ((bulkMarkPaid ⟨7, Role.admin⟩ [5, 5] 80 [invC9]).map (fun res => res.1))
      = some 2 := by
  refine ⟨by decide, by decide, ?_, ?_⟩ <;> decide

/-- Claim C9 (amended): for a duplicate-free `invoiceIds`, each requested
invoice receives at most one stage transition per call, chosen by role
(`roleTransform`): a distributor marks `clientToDistributor` only when
unpaid; an admin marks `adminToCompany` when unpaid, else
`distributorToAdmin` when unpaid, and never touches `clientToDistributor`;
missing invoices and invoices with no eligible stage are skipped without
error and excluded from the reported count, which equals the number of
eligible requested ids.  (With duplicate ids, one call can mark several
stages of the same invoice — see the counterexample.) -/
theorem bulk_mark_paid_role_semantics (user : UserCtx) (now : Nat)
    (invoiceIds : List Nat) (store : List Invoice) (res : Nat × List Invoice)
    (hnodup : invoiceIds.Nodup) (hnd : (store.map (fun j => j.id)).Nodup)
    (hres : bulkMarkPaid user invoiceIds now store = some res) :
    res.1 = (invoiceIds.filter (fun k => eligibleB user store k)).length ∧
    (∀ k ∈ invoiceIds, lookupById res.2 k =
      (lookupById store k).map (roleTransform user now)) ∧
    (∀ k, k ∉ invoiceIds → lookupById res.2 k = lookupById store k) ∧
    (user.role = Role.admin → ∀ k,
      (lookupById res.2 k).map (fun j => j.paymentStatus.clientToDistributor) =
      (lookupById store k).map (fun j => j.paymentStatus.clientToDistributor)) := by
  have hres2 : res = bulkMarkPaidLoop user now invoiceIds store 0 := by
    unfold bulkMarkPaid at hres
    by_cases he : invoiceIds.isEmpty = true
    · rw [he] at hres; simp at hres
    · have he' : invoiceIds.isEmpty = false := by simpa using he
      rw [he'] at hres
      simp at hres
      exact hres.symm
  obtain ⟨hcount, hlook⟩ := bulkLoop_spec user now invoiceIds store 0 hnodup hnd
  have hadm : user.role = Role.admin → ∀ inv : Invoice,
      (roleTransform user now inv).paymentStatus.clientToDistributor =
      inv.paymentStatus.clientToDistributor := by
    intro hrole inv
    unfold roleTransform stepChoice
    rw [hrole]
    by_cases h1 : inv.paymentStatus.adminToCompany.isPaid = true
    · by_cases h2 : inv.paymentStatus.distributorToAdmin.isPaid = true
      · simp [h1, h2]
      · simp only [Bool.not_eq_true] at h2
        simp [h1, h2, markPaymentStep, stageSet, stageGet]
    · simp only [Bool.not_eq_true] at h1
      simp [h1, markPaymentStep, stageSet, stageGet]
  refine ⟨by rw [hres2, hcount]; exact Nat.zero_add _, ?_, ?_, ?_⟩
  · intro k hk
    rw [hres2]
    exact hlook k hk
  · intro k hk
    rw [hres2]
    exact bulkLoop_frame user now invoiceIds store 0 k hk
  · intro hrole k
    by_cases hk : k ∈ invoiceIds
    · rw [hres2, hlook k hk]
      cases hl : lookupById store k with
      | none => rfl
      | some inv => simp [hadm hrole inv]
    · rw [hres2, bulkLoop_frame user now invoiceIds store 0 k hk]

/-- Witness for the amended C9: admin 7 bulk-marks `[5]` over a one-invoice
store; invoice 5 (all stages unpaid) gets exactly its `adminToCompany`
transition and the count is 1. -/
theorem bulk_mark_paid_role_semantics_witness :
    (bulkMarkPaidLoop ⟨7, Role.admin⟩ 80 [5] [invC9] 0).1 =
      (([5] : List Nat).filter (fun k => eligibleB ⟨7, Role.admin⟩ [invC9] k)).length ∧
    (∀ k ∈ ([5] : List Nat),
      lookupById (bulkMarkPaidLoop ⟨7, Role.admin⟩ 80 [5] [invC9] 0).2 k =
      (lookupById [invC9] k).map (roleTransform ⟨7, Role.admin⟩ 80)) ∧
    (∀ k, k ∉ ([5] : List Nat) →
      lookupById (bulkMarkPaidLoop ⟨7, Role.admin⟩ 80 [5] [invC9] 0).2 k =
      lookupById [invC9] k) ∧
    ((⟨7, Role.admin⟩ : UserCtx).role = Role.admin → ∀ k,
      (lookupById (bulkMarkPaidLoop ⟨7, Role.admin⟩ 80 [5] [invC9] 0).2 k).map
        (fun j => j.paymentStatus.clientToDistributor) =
      (lookupById [invC9] k).map (fun j => j.paymentStatus.clientToDistributor)) :=
  bulk_mark_paid_role_semantics ⟨7, Role.admin⟩ 80 [5] [invC9]
    (bulkMarkPaidLoop ⟨7, Role.admin⟩ 80 [5] [invC9] 0) (by decide) (by decide) rfl

/-! The process-payment API, `router.post('/api/invoices/process-payment')`
(src/routes/invoices.js:1400-1449). -/

/-- Outcome of the process-payment API. -/
inductive PPResult where
  | badRequest
  | notFound
  | ok (processedInvoices : Nat)
deriving DecidableEq, Repr

/-- The selection of the process-payment API: unpaid invoices of the
customer, where "unpaid" is `paymentStatus.clientToDistributor.status ≠
'paid'` — the string field, not the `isPaid` boolean
(src/routes/invoices.js:1412-1415, same `$ne: 'paid'` condition as the
customer-debts aggregation at lines 1322-1326). -/
def ppSelect (customerId : Nat) (store : List Invoice) : List Invoice :=
  store.filter (fun i => i.client == customerId &&
    !(i.paymentStatus.clientToDistributor.status == some "paid"))

/-- The per-invoice `findByIdAndUpdate` of the process-payment API: dotted
update paths that write only `status`, `paidAt`, `paymentMethod`, `notes`
and `markedBy` of the `clientToDistributor` sub-record
(src/routes/invoices.js:1426-1432); `isPaid` is never written. -/
def ppUpdate (userId paymentDate : Nat) (paymentMethod : String)
    (paymentNotes : Option String) (inv : Invoice) : Invoice :=
  { inv with paymentStatus :=
      { inv.paymentStatus with clientToDistributor :=
        { inv.paymentStatus.clientToDistributor with
          status := some "paid"
          paidAt := some paymentDate
          paymentMethod := some paymentMethod
          notes := paymentNotes
          markedBy := some userId } } }

/-- `router.post('/api/invoices/process-payment')`: 400 when a required field
is missing, 404 when the customer has no unpaid invoices, otherwise update
them all. -/
def processPayment (userId customerId : Nat) (paymentMethod : Option String)
    (paymentDate : Option Nat) (paymentNotes : Option String)
    (store : List Invoice) : PPResult × List Invoice :=
  match paymentMethod, paymentDate with
  | some pm, some pd =>
    if (ppSelect customerId store).isEmpty then (.notFound, store)
    else
      (.ok (ppSelect customerId store).length,
        saveAll ((ppSelect customerId store).map
          (ppUpdate userId pd pm paymentNotes)) store)
  | _, _ => (.badRequest, store)

/-- Claim C10: for every invoice the process-payment API settles, only the
`clientToDistributor` sub-record's `status` (set to the string `'paid'`),
`paidAt`, `paymentMethod`, `notes` and `markedBy` are written; its `isPaid`
boolean and the other two stage sub-records (and the monetary fields) keep
their previous values — so an invoice settled through this endpoint still
has `clientToDistributor.isPaid = false` whenever it was false before, for
every operation that selects on that boolean
(src/routes/invoices.js:1411-1435). -/
theorem process_payment_writes_status_not_isPaid (userId customerId pd : Nat)
    (pm : String) (pnotes : Option String) (store : List Invoice) (inv : Invoice)
    (hnd : (store.map (fun j => j.id)).Nodup) (hmem : inv ∈ store)
    (hcli : inv.client = customerId)
    (hunpaid : inv.paymentStatus.clientToDistributor.status ≠ some "paid") :
    ∃ j, lookupById
        (processPayment userId customerId (some pm) (some pd) pnotes store).2
        inv.id = some j ∧
      j.paymentStatus.clientToDistributor.status = some "paid" ∧
      j.paymentStatus.clientToDistributor.paidAt = some pd ∧
      j.paymentStatus.clientToDistributor.paymentMethod = some pm ∧
      j.paymentStatus.clientToDistributor.notes = pnotes ∧
      j.paymentStatus.clientToDistributor.markedBy = some userId ∧
      j.paymentStatus.clientToDistributor.isPaid =
        inv.paymentStatus.clientToDistributor.isPaid ∧
      j.paymentStatus.distributorToAdmin = inv.paymentStatus.distributorToAdmin ∧
      j.paymentStatus.adminToCompany = inv.paymentStatus.adminToCompany ∧
      j.total = inv.total ∧
      j.amount = inv.amount ∧
      j.clientCommissionRate = inv.clientCommissionRate ∧
      (inv.paymentStatus.clientToDistributor.isPaid = false →
        j.paymentStatus.clientToDistributor.isPaid = false) := by
  have hsel : inv ∈ ppSelect customerId store := by
    unfold ppSelect
    refine List.mem_filter.mpr ⟨hmem, ?_⟩
    simp [hcli, hunpaid]
  have hne : (ppSelect customerId store).isEmpty = false := by
    cases hP : ppSelect customerId store with
    | nil => rw [hP] at hsel; simp at hsel
    | cons a l => rfl
  have hroute : (processPayment userId customerId (some pm) (some pd) pnotes store).2 =
      saveAll ((ppSelect customerId store).map
        (ppUpdate userId pd pm pnotes)) store := by
    unfold processPayment
    rw [hne]
    simp
  rw [hroute]
  have hsub : List.Sublist (ppSelect customerId store) store :=
    List.filter_sublist _
  have hndsel : ((ppSelect customerId store).map (fun j => j.id)).Nodup :=
    (hsub.map _).nodup hnd
  have hndmk : (((ppSelect customerId store).map
      (ppUpdate userId pd pm pnotes)).map (fun j => j.id)).Nodup := by
    rw [map_id_map_mark (ppUpdate userId pd pm pnotes) (fun i => rfl) _]
    exact hndsel
  have hmk := lookupById_saveAll_mem
    ((ppSelect customerId store).map (ppUpdate userId pd pm pnotes)) store
    (ppUpdate userId pd pm pnotes inv) hndmk (List.mem_map_of_mem _ hsel)
  have hid : (ppUpdate userId pd pm pnotes inv).id = inv.id := rfl
  rw [hid] at hmk
  rw [lookupById_of_mem hnd hmem] at hmk
  refine ⟨ppUpdate userId pd pm pnotes inv, by simpa using hmk, ?_, ?_, ?_, ?_, ?_,
    ?_, ?_, ?_, ?_, ?_, ?_, ?_⟩ <;> simp [ppUpdate]

/-- Concrete invoice for the C10 witness: client 1, stage status unset. -/
def invPP : Invoice :=
  { id := 60
    invoiceCode := "P1"
    client := 1
    file := 6
    assignedDistributor := 2
    invoiceDate := 9
    amount := 70
    createdBy := some 7 }

/-- Witness for C10: settling customer 1 writes the five dotted fields of
`clientToDistributor` on `invPP` and leaves `isPaid` false. -/
theorem process_payment_writes_status_not_isPaid_witness :
    ∃ j, lookupById
        (processPayment 2 1 (some "cash") (some 77) (some "note") [invPP]).2
        invPP.id = some j ∧
      j.paymentStatus.clientToDistributor.status = some "paid" ∧
      j.paymentStatus.clientToDistributor.paidAt = some 77 ∧
      j.paymentStatus.clientToDistributor.paymentMethod = some "cash" ∧
      j.paymentStatus.clientToDistributor.notes = some "note" ∧
      j.paymentStatus.clientToDistributor.markedBy = some 2 ∧
      j.paymentStatus.clientToDistributor.isPaid =
        invPP.paymentStatus.clientToDistributor.isPaid ∧
      j.paymentStatus.distributorToAdmin = invPP.paymentStatus.distributorToAdmin ∧
      j.paymentStatus.adminToCompany = invPP.paymentStatus.adminToCompany ∧
      j.total = invPP.total ∧
      j.amount = invPP.amount ∧
      j.clientCommissionRate = invPP.clientCommissionRate ∧
      (invPP.paymentStatus.clientToDistributor.isPaid = false →
        j.paymentStatus.clientToDistributor.isPaid = false) :=
  process_payment_writes_status_not_isPaid 2 1 77 "cash" (some "note") [invPP]
    invPP (by decide) (by decide) (by decide) (by decide)

end InvoicesApp
